import Mathlib
/-!
Verification development for the `cem` experiment scripts
(`train_cub.py` and `experiments/cub_emb_size_ablation.py`).

The two scripts are orchestration glue: they build per-variant
configuration dictionaries (Python `dict`s mutated after a
`copy.deepcopy` of a base configuration), call external training
functions from the `cem` library, record results into a nested results
dictionary, and serialize that dictionary after every iteration.

The embedding below models

* Python values appearing in the configuration dictionaries (`Value`),
* insertion-ordered dictionaries as association lists (`Dict`),
* the aliasing-relevant part of the Python heap (`PyHeap`): the base
  configuration `og_config` is one heap cell, and every
  `config = copy.deepcopy(og_config)` allocates a fresh cell, so that a
  hypothetical aliasing bug (`config = og_config`) would be observable
  as mutation of the base cell,
* each script's `main` as a state-threading function that also emits an
  event trace (`extend_with_global_params` calls, the `generate_data`
  call, `np.save` calls, training calls, `update_statistics` calls and
  `joblib.dump` calls), and
* the `__main__` dataset dispatch of `train_cub.py`, including the
  exceptions it produces (`ValueError`, `NameError`, `AttributeError`).

External library functions (`training.train_model`,
`training.update_statistics`, `generate_data`,
`utils.extend_with_global_params`) live outside this repository; their
observable interaction with the scripts is abstracted by an oracle
structure, and `extend_with_global_params` is modelled from the spec.
-/
set_option maxRecDepth 100000
namespace CemSpec

/-- Python values that occur in the scripts' configuration dictionaries.
Floating point literals are carried symbolically as a decimal mantissa
and exponent (`0.25` is `vfloat 25 (-2)`); the scripts never compute
with them, so only (in)equality of literals matters. -/
inductive Value where
  | vint (i : Int)
  | vfloat (mant : Int) (exp : Int)
  | vstr (s : String)
  | vbool (b : Bool)
  | vnone
  | vfn (name : String)
  deriving DecidableEq, Repr

/-- Insertion-ordered dictionary, as Python dicts preserve insertion
order; assignment to an existing key keeps its position. -/
abbrev Dict := List (String × Value)

/-- Assignment `d[k] = v` on an insertion-ordered association list:
update in place if the key exists, otherwise append at the end. -/
def assocSet {κ α : Type} [DecidableEq κ] : List (κ × α) → κ → α → List (κ × α)
  | [], k, v => [(k, v)]
  | (k', v') :: rest, k, v =>
      if k' = k then (k, v) :: rest else (k', v') :: assocSet rest k v

/-- Lookup `d[k]` on an association list. -/
def assocGet {κ α : Type} [DecidableEq κ] : List (κ × α) → κ → Option α
  | [], _ => none
  | (k', v') :: rest, k => if k' = k then some v' else assocGet rest k

/-- Boolean membership check used for shape predicates. -/
def memB {α : Type} [DecidableEq α] (x : α) (l : List α) : Bool :=
  l.any (fun y => decide (x = y))

/-- Integer reading of a configuration value, as the scripts do
arithmetic such as `(config['emb_size'] - 1) * n_concepts` on them.
Python booleans are integers; on any other value Python would raise a
`TypeError`, which cannot happen for the keys the scripts read from
their own base configurations, so the model totalizes with `0`. -/
def pyInt : Option Value → Int
  | some (.vint i) => i
  | some (.vbool b) => if b then 1 else 0
  | _ => 0

/-- String reading of a configuration value (used only to summarize
event traces). -/
def pyStr : Option Value → String
  | some (.vstr s) => s
  | _ => ""

/-- Modelled from the spec: `cem.train.utils.extend_with_global_params`
is not part of this repository. The spec describes the `-p` and
`--param` flags as "ad hoc config overrides ... (hyperparameter name → value)",
so the model writes each override into the configuration dictionary in
order. -/
def extend_with_global_params (cfg : Dict) (ps : List (String × Value)) : Dict :=
  ps.foldl (fun c p => assocSet c p.1 p.2) cfg

/-- `os.path.join` for the relative path fragments the scripts use. -/
def joinPath (a b : String) : String :=
  if a = "" then b else if a.endsWith "/" then a ++ b else a ++ "/" ++ b

/-! ### The aliasing-relevant heap

`og_config` is one dedicated cell; every `copy.deepcopy(og_config)`
allocates a fresh copy cell. Writing through a `Ref` mutates exactly
the referenced cell, so the translation of `config = copy.deepcopy(og_config)`
followed by `config[k] = v` provably leaves the base cell unchanged,
whereas a translation of an aliasing `config = og_config` would not. -/

/-- Reference to a dictionary object on the modelled heap. -/
inductive Ref where
  | og
  | copy (i : Nat)
  deriving DecidableEq, Repr

/-- Heap holding the `og_config` object and all deep copies made so far. -/
structure PyHeap where
  og : Dict
  copies : List Dict
  deriving Repr

/-- Dereference. -/
def readRef (h : PyHeap) : Ref → Dict
  | .og => h.og
  | .copy i => h.copies.getD i []

/-- In-place dictionary assignment through a reference. -/
def writeKeyRef (h : PyHeap) (r : Ref) (k : String) (v : Value) : PyHeap :=
  match r with
  | .og => { h with og := assocSet h.og k v }
  | .copy i => { h with copies := h.copies.set i (assocSet (h.copies.getD i []) k v) }

/-- `copy.deepcopy` through a reference: allocates a fresh cell. -/
def deepcopy (h : PyHeap) (r : Ref) : PyHeap × Ref :=
  ({ h with copies := h.copies ++ [readRef h r] }, .copy h.copies.length)

/-- One `config[k] = expr` line: the written value may read the current
state of the copied dictionary (e.g. `config['emb_size']`). -/
abbrev SetLine := String × (Dict → Value)

/-- Constant right-hand side. -/
def K (v : Value) : Dict → Value := fun _ => v

/-- Pure meaning of a sequence of `config[k] = expr` lines applied to a
dictionary value. -/
def applySets (d : Dict) : List SetLine → Dict
  | [] => d
  | kv :: rest => applySets (assocSet d kv.1 (kv.2 d)) rest

/-- Faithful translation of a variant block
`config = copy.deepcopy(og_config); config[k1] = e1; ...`:
deep-copies the base cell and performs each assignment through the
fresh reference. -/
def runVariantBlock (h : PyHeap) (sets : List SetLine) : PyHeap × Ref :=
  let hr := deepcopy h .og
  (sets.foldl (fun hh kv => writeKeyRef hh hr.2 kv.1 (kv.2 (readRef hh hr.2))) hr.1, hr.2)

/-! ### Base configurations

`CUB_CONFIG` is `train_cub.py` lines 24-48; `abOgConfig` is the
`og_config` dictionary literal of `cub_emb_size_ablation.py` lines
27-56 (its `num_workers` entry comes from the `num_workers` argument). -/

/-- `CUB_CONFIG` of `train_cub.py`. -/
def CUB_CONFIG : Dict :=
  [("cv", .vint 5),
   ("max_epochs", .vint 300),
   ("patience", .vint 15),
   ("batch_size", .vint 128),
   ("emb_size", .vint 16),
   ("extra_dims", .vint 0),
   ("concept_loss_weight", .vint 5),
   ("learning_rate", .vfloat 1 (-2)),
   ("weight_decay", .vfloat 4 (-5)),
   ("weight_loss", .vbool true),
   ("c_extractor_arch", .vstr "resnet34"),
   ("optimizer", .vstr "sgd"),
   ("bool", .vbool false),
   ("early_stopping_monitor", .vstr "val_loss"),
   ("early_stopping_mode", .vstr "min"),
   ("early_stopping_delta", .vfloat 0 0),
   ("sampling_percent", .vint 1),
   ("momentum", .vfloat 9 (-1)),
   ("sigmoidal_prob", .vbool false),
   ("training_intervention_prob", .vfloat 0 0),
   ("embeding_activation", .vnone),
   ("intervention_freq", .vint 4)]

/-- The `og_config` literal built inside `main` of
`cub_emb_size_ablation.py`. -/
def abOgConfig (numWorkers : Int) : Dict :=
  [("cv", .vint 5),
   ("max_epochs", .vint 300),
   ("patience", .vint 15),
   ("batch_size", .vint 128),
   ("num_workers", .vint numWorkers),
   ("emb_size", .vint 16),
   ("extra_dims", .vint 0),
   ("concept_loss_weight", .vint 5),
   ("learning_rate", .vfloat 1 (-2)),
   ("weight_decay", .vfloat 4 (-5)),
   ("scheduler_step", .vint 20),
   ("weight_loss", .vbool true),
   ("c_extractor_arch", .vstr "resnet34"),
   ("optimizer", .vstr "sgd"),
   ("bool", .vbool false),
   ("early_stopping_monitor", .vstr "val_loss"),
   ("early_stopping_mode", .vstr "min"),
   ("early_stopping_delta", .vfloat 0 0),
   ("sampling_percent", .vfloat 25 (-2)),
   ("momentum", .vfloat 9 (-1)),
   ("shared_prob_gen", .vbool false),
   ("sigmoidal_prob", .vbool false),
   ("sigmoidal_embedding", .vbool false),
   ("training_intervention_prob", .vfloat 0 0),
   ("embeding_activation", .vnone),
   ("concat_prob", .vbool false)]

/-! ### The `__main__` dataset dispatch of `train_cub.py`

Lines 387-396 declare the argparse choices; lines 462-494 dispatch on
`args.dataset`. The module imports `cub_data_module`, `training`,
`utils`, `get_synthetic_data_loader` and `get_synthetic_num_features`
only; the names `celeba_data_module`, `CELEBA_CONFIG` and
`SYNTH_CONFIG` are not defined anywhere in the file, so evaluating them
raises a `NameError`. External calls that are defined
(`get_synthetic_data_loader`, `get_synthetic_num_features`,
`str.format` on an actual string) are assumed to return normally. -/

/-- The accepted values of the positional `dataset` argument
(`choices=` on lines 388-389). -/
def datasetChoices : List String := ["cub", "celeba", "xor", "trig", "vec", "dot"]

/-- Outcome of the dispatch code between `args = parser.parse_args()`
and the call to `main`. -/
inductive DispatchOutcome where
  | ok (dataModuleName : String) (ogConfig : Dict) (outputDir : String) (projectName : String)
  | nameError (name : String)
  | valueError (msg : String)
  | attributeError (msg : String)
  deriving DecidableEq, Repr

/-- Replacement of every `\x7bds_name\x7d` template field in a
character list. -/
def replaceDsNameAux (name : List Char) : List Char → List Char
  | [] => []
  | '\x7b' :: 'd' :: 's' :: '_' :: 'n' :: 'a' :: 'm' :: 'e' :: '\x7d' :: rest =>
      name ++ replaceDsNameAux name rest
  | c :: rest => c :: replaceDsNameAux name rest

/-- Python `s.format(ds_name=name)` for the template strings used by
the dispatch. -/
def pyFormatDsName (s name : String) : String :=
  ⟨replaceDsNameAux name.toList s.toList⟩

/-- Whether an outcome is an `AttributeError`. -/
def DispatchOutcome.isAttrError : DispatchOutcome → Bool
  | .attributeError _ => true
  | _ => false

/-- Translation of `train_cub.py` lines 462-494: the `if/elif` chain on
`args.dataset`, the `.format` calls on `args.output_dir` and
`args.project_name`, the final `else: raise ValueError(...)`, and the
`output_dir is None` default that follows the chain.  `outputDir` is
`None` exactly when `--output_dir` was not passed (its argparse default
is `None`). -/
def dispatch (dataset : String) (outputDir : Option String) (projectName : String) :
    DispatchOutcome :=
  if dataset = "cub" then
    match outputDir with
    | none => .attributeError "NoneType object has no attribute format"
    | some od =>
        .ok "cub_data_module" CUB_CONFIG (pyFormatDsName od "cub") (pyFormatDsName projectName "cub")
  else if dataset = "celeba" then
    .nameError "celeba_data_module"
  else if dataset ∈ (["xor", "vector", "dot", "trig"] : List String) then
    .nameError "SYNTH_CONFIG"
  else
    .valueError ("Unsupported dataset " ++ dataset ++ "!")

/-! ### `train_cub.py`: the `main` function -/

/-- Consecutive identifiers `s, s + 1, ..., s + k - 1`. -/
def seqIds : Nat → Nat → List Nat
  | _, 0 => []
  | s, k + 1 => s :: seqIds (s + 1) k

/-- The six activation-dump files both scripts write when enabled, in
write order. -/
def npyPaths (rd : String) : List String :=
  [joinPath (joinPath rd "test_embedding_acts") "x_test.npy",
   joinPath (joinPath rd "test_embedding_acts") "y_test.npy",
   joinPath (joinPath rd "test_embedding_acts") "c_test.npy",
   joinPath (joinPath rd "test_embedding_acts") "x_val.npy",
   joinPath (joinPath rd "test_embedding_acts") "y_val.npy",
   joinPath (joinPath rd "test_embedding_acts") "c_val.npy"]

/-! ### `experiments/cub_emb_size_ablation.py`: the `main` function -/

namespace TrainCub

/-- Metrics recorded for one cross-validation split (the mapping
`update_statistics` fills in). -/
abbrev Stats := List (String × Value)

/-- The `results` dictionary of `train_cub.py`: split label (the string
`f-string` of the split index) to metrics. -/
abbrev Res := List (String × Stats)

/-- Observable behaviour of the external `cem` library functions used
by `main`: `generate_data` yields `n_concepts` and `n_tasks`, and
`update_statistics` extends a per-split metrics dictionary from the
configuration and the outputs of the training call identified by a
`(call, slot)` token. These functions are not part of this repository;
the scripts only thread their values around. -/
structure Oracle where
  nConcepts : Int
  nTasks : Int
  updateStats : Stats → Dict → Nat × Nat → Stats

/-- Arguments of `main` (`train_cub.py` lines 51-62), with the defaults
of the Python signature available via `defaultArgs`. -/
structure Args where
  rerun : Bool
  resultDir : String
  projectName : String
  activationFreq : Int
  numWorkers : Int
  singleFrequencyEpochs : Int
  globalParams : List (String × Value)
  ogConfig : Option Dict

/-- Default argument values of `main`'s Python signature. -/
def defaultArgs : Args :=
  { rerun := false
    resultDir := "results/"
    projectName := ""
    activationFreq := 0
    numWorkers := 8
    singleFrequencyEpochs := 0
    globalParams := []
    ogConfig := none }

/-- Trace events emitted by `main`, in program order. `initSplit`
records the `results[f-split] = {}` initialization of line 123. -/
inductive Event where
  | extendParams (cfg : Dict)
  | generateData (cfg : Dict)
  | saveNpy (path : String)
  | initSplit (split : Nat)
  | train (callId : Nat) (fn : String) (split : Nat) (cfg : Dict)
  | update (callId : Nat) (slot : Nat) (split : Nat) (cfg : Dict)
  | dump (path : String) (snapshot : Res)
  deriving DecidableEq, Repr

/-- The `config[...] = ...` lines 126-131 (ConceptEmbeddingModel). -/
def cemLines : List SetLine :=
  [("architecture", K (.vstr "ConceptEmbeddingModel")),
   ("extra_name", K (.vstr "")),
   ("sigmoidal_prob", K (.vbool true)),
   ("training_intervention_prob", K (.vfloat 25 (-2))),
   ("emb_size", fun c => (assocGet c "emb_size").getD .vnone),
   ("embeding_activation", K (.vstr "leakyrelu"))]

/-- The `config[...] = ...` lines 157-162 (ConceptEmbeddingModel with
RandInt turned off). -/
def noRandIntLines : List SetLine :=
  [("architecture", K (.vstr "ConceptEmbeddingModel")),
   ("extra_name", K (.vstr "NoRandInt")),
   ("sigmoidal_prob", K (.vbool true)),
   ("training_intervention_prob", K (.vfloat 0 0)),
   ("emb_size", fun c => (assocGet c "emb_size").getD .vnone),
   ("embeding_activation", K (.vstr "leakyrelu"))]

/-- The `config[...] = ...` lines 190-196 (fuzzy extra-capacity
ConceptBottleneckModel); `extra_dims = (config['emb_size'] - 1) * n_concepts`. -/
def fuzzyExtraLines (n : Int) : List SetLine :=
  [("architecture", K (.vstr "ConceptBottleneckModel")),
   ("bool", K (.vbool false)),
   ("extra_dims", fun c => .vint ((pyInt (assocGet c "emb_size") - 1) * n)),
   ("extra_name", K (.vstr "FuzzyExtraCapacity_Logit")),
   ("bottleneck_nonlinear", K (.vstr "leakyrelu")),
   ("sigmoidal_extra_capacity", K (.vbool false)),
   ("sigmoidal_prob", K (.vbool false))]

/-- The `config[...] = ...` lines 223-228 (fuzzy ConceptBottleneckModel). -/
def fuzzyLines : List SetLine :=
  [("architecture", K (.vstr "ConceptBottleneckModel")),
   ("extra_name", K (.vstr "Fuzzy")),
   ("bool", K (.vbool false)),
   ("extra_dims", K (.vint 0)),
   ("sigmoidal_extra_capacity", K (.vbool false)),
   ("sigmoidal_prob", K (.vbool true))]

/-- The `config[...] = ...` lines 255-257 (Bool ConceptBottleneckModel). -/
def boolLines : List SetLine :=
  [("architecture", K (.vstr "ConceptBottleneckModel")),
   ("extra_name", K (.vstr "Bool")),
   ("bool", K (.vbool true))]

/-- The `config[...] = ...` lines 284-286 (base configuration of the
independent/sequential training call). -/
def indSeqLines : List SetLine :=
  [("architecture", K (.vstr "ConceptBottleneckModel")),
   ("extra_name", K (.vstr "")),
   ("sigmoidal_prob", K (.vbool true))]

/-- The `config[...] = ...` lines 323-328 (no-concept-supervision
extra-capacity ConceptBottleneckModel). -/
def noSupLines (n : Int) : List SetLine :=
  [("architecture", K (.vstr "ConceptBottleneckModel")),
   ("extra_name", K (.vstr "NoConceptSupervisionReLU_ExtraCapacity")),
   ("bool", K (.vbool false)),
   ("extra_dims", fun c => .vint ((pyInt (assocGet c "emb_size") - 1) * n)),
   ("bottleneck_nonlinear", K (.vstr "leakyrelu")),
   ("concept_loss_weight", K (.vint 0))]

/-- Value of the CEM variant configuration built from the base. -/
def cfgCem (og : Dict) : Dict := applySets og cemLines

/-- Value of the NoRandInt variant configuration. -/
def cfgNoRandInt (og : Dict) : Dict := applySets og noRandIntLines

/-- Value of the fuzzy extra-capacity variant configuration. -/
def cfgFuzzyExtra (n : Int) (og : Dict) : Dict := applySets og (fuzzyExtraLines n)

/-- Value of the fuzzy variant configuration. -/
def cfgFuzzy (og : Dict) : Dict := applySets og fuzzyLines

/-- Value of the Bool variant configuration. -/
def cfgBool (og : Dict) : Dict := applySets og boolLines

/-- Value of the configuration passed to
`train_independent_and_sequential_model`. -/
def cfgIndSeqBase (og : Dict) : Dict := applySets og indSeqLines

/-- Configuration recorded for the independent model (line 304 mutates
`architecture` after training). -/
def cfgInd (og : Dict) : Dict :=
  assocSet (cfgIndSeqBase og) "architecture" (.vstr "IndependentConceptBottleneckModel")

/-- Configuration recorded for the sequential model (line 312). -/
def cfgSeq (og : Dict) : Dict :=
  assocSet (cfgInd og) "architecture" (.vstr "SequentialConceptBottleneckModel")

/-- Value of the no-concept-supervision variant configuration. -/
def cfgNoSup (n : Int) (og : Dict) : Dict := applySets og (noSupLines n)

/-- Loop state of `main`: the heap (base configuration plus deep
copies), the `results` dictionary, the event trace so far and the next
training-call identifier. -/
structure St where
  heap : PyHeap
  results : Res
  events : List Event
  nextId : Nat

/-- One variant block followed by its `train_model` and
`update_statistics` calls: deep-copy the base configuration, apply the
block's assignments, train, and record into `results[f-split]`. -/
def trainUpdateStep (o : Oracle) (fn : String) (split : Nat) (lines : List SetLine)
    (st : St) : St :=
  let hr := runVariantBlock st.heap lines
  let cfg := readRef hr.1 hr.2
  let skey := toString split
  let stats := (assocGet st.results skey).getD []
  { heap := hr.1
    results := assocSet st.results skey (o.updateStats stats cfg (st.nextId, 0))
    events := st.events ++ [.train st.nextId fn split cfg, .update st.nextId 0 split cfg]
    nextId := st.nextId + 1 }

/-- The independent/sequential block (lines 283-318): one training call
returning both models, then two `update_statistics` calls, with
`config["architecture"]` mutated in place before each. -/
def indSeqStep (o : Oracle) (split : Nat) (st : St) : St :=
  let hr := runVariantBlock st.heap indSeqLines
  let cfg0 := readRef hr.1 hr.2
  let skey := toString split
  let ev1 := st.events ++ [.train st.nextId "train_independent_and_sequential_model" split cfg0]
  let h1 := writeKeyRef hr.1 hr.2 "architecture" (.vstr "IndependentConceptBottleneckModel")
  let cfgI := readRef h1 hr.2
  let stats0 := (assocGet st.results skey).getD []
  let res1 := assocSet st.results skey (o.updateStats stats0 cfgI (st.nextId, 0))
  let ev2 := ev1 ++ [.update st.nextId 0 split cfgI]
  let h2 := writeKeyRef h1 hr.2 "architecture" (.vstr "SequentialConceptBottleneckModel")
  let cfgS := readRef h2 hr.2
  let stats1 := (assocGet res1 skey).getD []
  { heap := h2
    results := assocSet res1 skey (o.updateStats stats1 cfgS (st.nextId, 1))
    events := ev2 ++ [.update st.nextId 1 split cfgS]
    nextId := st.nextId + 1 }

/-- Body of the `for split in range(og_config["cv"])` loop (lines
121-354): initialize `results[f-split]`, run the seven variant blocks,
and dump the cumulative results. -/
def splitBody (o : Oracle) (a : Args) (st : St) (split : Nat) : St :=
  let st0 : St := { st with
    results := assocSet st.results (toString split) [],
    events := st.events ++ [.initSplit split] }
  let st1 := trainUpdateStep o "train_model" split cemLines st0
  let st2 := trainUpdateStep o "train_model" split noRandIntLines st1
  let st3 := trainUpdateStep o "train_model" split (fuzzyExtraLines o.nConcepts) st2
  let st4 := trainUpdateStep o "train_model" split fuzzyLines st3
  let st5 := trainUpdateStep o "train_model" split boolLines st4
  let st6 := indSeqStep o split st5
  let st7 := trainUpdateStep o "train_model" split (noSupLines o.nConcepts) st6
  { st7 with
    events := st7.events ++ [.dump (joinPath a.resultDir "results.joblib") st7.results] }

/-- The split loop. -/
def runSplits (o : Oracle) (a : Args) (st : St) (l : List Nat) : St :=
  l.foldl (splitBody o a) st

/-- The `np.save` calls of lines 81-103: executed if and only if
`result_dir` is truthy (non-empty) and `activation_freq` is truthy
(nonzero); one `x_/y_/c_` triple for the test set, then one for the
validation set, under `result_dir/test_embedding_acts`. -/
def actsSaveEvents (resultDir : String) (activationFreq : Int) : List Event :=
  if resultDir ≠ "" ∧ activationFreq ≠ 0 then
    ["test", "val"].flatMap (fun nm =>
      ["x_", "y_", "c_"].map (fun p =>
        Event.saveNpy (joinPath (joinPath resultDir "test_embedding_acts") (p ++ nm ++ ".npy"))))
  else []

/-- The base configuration after line 69 (`og_config['num_workers'] = num_workers`)
and the first `extend_with_global_params` call (line 70). -/
def ogExt1 (a : Args) : Dict :=
  extend_with_global_params
    (assocSet (a.ogConfig.getD CUB_CONFIG) "num_workers" (.vint a.numWorkers))
    a.globalParams

/-- The base configuration after the second `extend_with_global_params`
call (line 73): the fully built configuration `generate_data` and the
split loop observe. -/
def ogFull (a : Args) : Dict :=
  extend_with_global_params (ogExt1 a) a.globalParams

/-- The loop bound `og_config["cv"]` (line 121), as a natural number,
matching Python `range`'s clamping of non-positive bounds. -/
def cv (a : Args) : Nat := (pyInt (assocGet (ogFull a) "cv")).toNat

/-- Events before the split loop: the two override extensions, the
single `generate_data` call, and the optional activation dumps. -/
def preEvents (a : Args) : List Event :=
  [Event.extendParams (ogExt1 a), Event.extendParams (ogFull a), Event.generateData (ogFull a)]
  ++ actsSaveEvents a.resultDir a.activationFreq

/-- What `main` leaves behind: the returned `results` dictionary, the
event trace, and the final heap. -/
structure Run where
  results : Res
  events : List Event
  heap : PyHeap

/-- Translation of `main` of `train_cub.py` (lines 51-356): deep-copy
the base configuration, set `num_workers`, apply the global-param
overrides (twice, as the source does), call `generate_data`, optionally
dump the activation data, then run the split loop and return `results`. -/
def main (o : Oracle) (a : Args) : Run :=
  let og1 := assocSet (a.ogConfig.getD CUB_CONFIG) "num_workers" (.vint a.numWorkers)
  let og2 := extend_with_global_params og1 a.globalParams
  let og3 := extend_with_global_params og2 a.globalParams
  let ev := [Event.extendParams og2, Event.extendParams og3, Event.generateData og3]
            ++ actsSaveEvents a.resultDir a.activationFreq
  let n := (pyInt (assocGet og3 "cv")).toNat
  let st := runSplits o a
    { heap := { og := og3, copies := [] }, results := [], events := ev, nextId := 0 }
    (List.range n)
  { results := st.results, events := st.events, heap := st.heap }

/-- Metrics accumulated for one split: the chain of the eight
`update_statistics` calls, with training-call identifiers starting at
`nid`. -/
def splitStats (o : Oracle) (og : Dict) (nid : Nat) : Stats :=
  let s1 := o.updateStats [] (cfgCem og) (nid, 0)
  let s2 := o.updateStats s1 (cfgNoRandInt og) (nid + 1, 0)
  let s3 := o.updateStats s2 (cfgFuzzyExtra o.nConcepts og) (nid + 2, 0)
  let s4 := o.updateStats s3 (cfgFuzzy og) (nid + 3, 0)
  let s5 := o.updateStats s4 (cfgBool og) (nid + 4, 0)
  let s6 := o.updateStats s5 (cfgInd og) (nid + 5, 0)
  let s7 := o.updateStats s6 (cfgSeq og) (nid + 5, 1)
  o.updateStats s7 (cfgNoSup o.nConcepts og) (nid + 6, 0)

/-- Events of one split body, with the dump snapshot passed in. -/
def splitEvents (o : Oracle) (resultDir : String) (og : Dict) (nid split : Nat)
    (snap : Res) : List Event :=
  [.initSplit split,
   .train nid "train_model" split (cfgCem og),
   .update nid 0 split (cfgCem og),
   .train (nid + 1) "train_model" split (cfgNoRandInt og),
   .update (nid + 1) 0 split (cfgNoRandInt og),
   .train (nid + 2) "train_model" split (cfgFuzzyExtra o.nConcepts og),
   .update (nid + 2) 0 split (cfgFuzzyExtra o.nConcepts og),
   .train (nid + 3) "train_model" split (cfgFuzzy og),
   .update (nid + 3) 0 split (cfgFuzzy og),
   .train (nid + 4) "train_model" split (cfgBool og),
   .update (nid + 4) 0 split (cfgBool og),
   .train (nid + 5) "train_independent_and_sequential_model" split (cfgIndSeqBase og),
   .update (nid + 5) 0 split (cfgInd og),
   .update (nid + 5) 1 split (cfgSeq og),
   .train (nid + 6) "train_model" split (cfgNoSup o.nConcepts og),
   .update (nid + 6) 0 split (cfgNoSup o.nConcepts og),
   .dump (joinPath resultDir "results.joblib") snap]

/-- The deep copies a split body leaves on the heap, in allocation
order (the independent/sequential cell ends as the sequential
configuration after the two in-place `architecture` writes). -/
def splitCopies (o : Oracle) (og : Dict) : List Dict :=
  [cfgCem og, cfgNoRandInt og, cfgFuzzyExtra o.nConcepts og, cfgFuzzy og, cfgBool og,
   cfgSeq og, cfgNoSup o.nConcepts og]

/-- Pure accumulation of the split loop: final results, emitted events,
and allocated copies for a given list of splits. -/
def loopDelta (o : Oracle) (resultDir : String) (og : Dict) :
    Nat → Res → List Nat → Res × List Event × List Dict
  | _, res, [] => (res, [], [])
  | nid, res, s :: rest =>
      let res1 := assocSet res (toString s) (splitStats o og nid)
      let d := loopDelta o resultDir og (nid + 7) res1 rest
      (d.1, splitEvents o resultDir og nid s res1 ++ d.2.1, splitCopies o og ++ d.2.2)

/-! #### Trace extraction for `train_cub.py` -/

/-- Training calls of a trace: identifier, callee, split and the
configuration passed. -/
def trainsOf (evs : List Event) : List (Nat × String × Nat × Dict) :=
  evs.filterMap (fun e => match e with
    | .train i f s c => some (i, f, s, c)
    | _ => none)

/-- Configurations passed to training calls, in order. -/
def trainCfgsOf (evs : List Event) : List Dict :=
  evs.filterMap (fun e => match e with
    | .train _ _ _ c => some c
    | _ => none)

/-- `joblib.dump` calls of a trace: path and snapshot. -/
def dumpsOf (evs : List Event) : List (String × Res) :=
  evs.filterMap (fun e => match e with
    | .dump p snap => some (p, snap)
    | _ => none)

/-- `np.save` paths of a trace. -/
def npyOf (evs : List Event) : List String :=
  evs.filterMap (fun e => match e with
    | .saveNpy p => some p
    | _ => none)

/-- Configuration-phase events: `true` for an
`extend_with_global_params` call, `false` for the `generate_data`
call, each with the configuration passed. -/
def cfgPhaseOf (evs : List Event) : List (Bool × Dict) :=
  evs.filterMap (fun e => match e with
    | .extendParams c => some (true, c)
    | .generateData c => some (false, c)
    | _ => none)

/-- The `generate_data` call (as `none`) and training calls (as their
identifiers), in order. -/
def genTrainOf (evs : List Event) : List (Option Nat) :=
  evs.filterMap (fun e => match e with
    | .generateData _ => some none
    | .train i _ _ _ => some (some i)
    | _ => none)

/-- The seven training calls of one split. -/
def splitTrainList (o : Oracle) (og : Dict) (nid split : Nat) :
    List (Nat × String × Nat × Dict) :=
  [(nid, "train_model", split, cfgCem og),
   (nid + 1, "train_model", split, cfgNoRandInt og),
   (nid + 2, "train_model", split, cfgFuzzyExtra o.nConcepts og),
   (nid + 3, "train_model", split, cfgFuzzy og),
   (nid + 4, "train_model", split, cfgBool og),
   (nid + 5, "train_independent_and_sequential_model", split, cfgIndSeqBase og),
   (nid + 6, "train_model", split, cfgNoSup o.nConcepts og)]

/-- Training calls of the whole split loop. -/
def deltaTrains (o : Oracle) (og : Dict) : Nat → List Nat → List (Nat × String × Nat × Dict)
  | _, [] => []
  | nid, s :: rest => splitTrainList o og nid s ++ deltaTrains o og (nid + 7) rest

/-- The seven variant configurations of one split, in training order. -/
def variantCfgList (o : Oracle) (og : Dict) : List Dict :=
  [cfgCem og, cfgNoRandInt og, cfgFuzzyExtra o.nConcepts og, cfgFuzzy og, cfgBool og,
   cfgIndSeqBase og, cfgNoSup o.nConcepts og]

/-- The cumulative results snapshots dumped by the split loop, one per
completed split. -/
def deltaDumps (o : Oracle) (og : Dict) : Nat → Res → List Nat → List Res
  | _, _, [] => []
  | nid, res, s :: rest =>
      let res1 := assocSet res (toString s) (splitStats o og nid)
      res1 :: deltaDumps o og (nid + 7) res1 rest

/-! #### Temporal checks for `train_cub.py` traces -/

/-- Identifier of the most recent training call, threaded through a
trace. -/
def lastTrain (init : Option Nat) : List Event → Option Nat
  | [] => init
  | Event.train i _ _ _ :: rest => lastTrain (some i) rest
  | _ :: rest => lastTrain init rest

/-- Every `update_statistics` call records the outputs of the most
recent training call: each update event's call identifier equals the
identifier of the training event last seen before it. -/
def updMatch : Option Nat → List Event → Prop
  | _, [] => True
  | _, Event.train i _ _ _ :: rest => updMatch (some i) rest
  | last, Event.update i _ _ _ :: rest => last = some i ∧ updMatch last rest
  | last, _ :: rest => updMatch last rest

/-- The counter value after sequentially numbering the training calls
of a trace. -/
def trainEnd : Nat → List Event → Nat
  | c, [] => c
  | c, Event.train _ _ _ _ :: rest => trainEnd (c + 1) rest
  | c, _ :: rest => trainEnd c rest

/-- The training calls of a trace are numbered sequentially
`c, c + 1, ...` in trace order, and every update event refers to the
training call that immediately precedes it (`i + 1 = c` means the
last-issued identifier). -/
def seqOk : Nat → List Event → Prop
  | _, [] => True
  | c, Event.train i _ _ _ :: rest => i = c ∧ seqOk (c + 1) rest
  | c, Event.update i _ _ _ :: rest => i + 1 = c ∧ seqOk c rest
  | c, _ :: rest => seqOk c rest

/-- Replay of the results-mutating events of a trace
(`results[f-split] = {}` initializations and `update_statistics`
calls), yielding the final results value. -/
def replayRes (o : Oracle) : Res → List Event → Res
  | r, [] => r
  | r, Event.initSplit s :: rest => replayRes o (assocSet r (toString s) []) rest
  | r, Event.update i sl s c :: rest =>
      replayRes o (assocSet r (toString s)
        (o.updateStats ((assocGet r (toString s)).getD []) c (i, sl))) rest
  | r, _ :: rest => replayRes o r rest

/-- Every `joblib.dump` snapshot equals the replay of all
results-mutating events that precede it. -/
def dumpsReplay (o : Oracle) : Res → List Event → Prop
  | _, [] => True
  | r, Event.initSplit s :: rest => dumpsReplay o (assocSet r (toString s) []) rest
  | r, Event.update i sl s c :: rest =>
      dumpsReplay o (assocSet r (toString s)
        (o.updateStats ((assocGet r (toString s)).getD []) c (i, sl))) rest
  | r, Event.dump _ snap :: rest => snap = r ∧ dumpsReplay o r rest
  | r, _ :: rest => dumpsReplay o r rest

/-! #### Run-level facts for `train_cub.py` -/

/-- Shape check: every top-level key of the `train_cub.py` results
dictionary is the label of one of the cross-validation splits. -/
def resKeysOk (cvN : Nat) (r : Res) : Bool :=
  r.all (fun kv => memB kv.1 ((List.range cvN).map (fun s => toString s)))

end TrainCub

namespace Ablation

/-- Metrics recorded for one (embedding size, split) cell. -/
abbrev Stats := List (String × Value)

/-- The `results` dictionary of the ablation script: embedding size
(a Python int) to split label to metrics. -/
abbrev Res := List (Int × List (String × Stats))

/-- Observable behaviour of the external `cem` functions used by the
ablation `main`. `generate_data` yields `n_concepts`/`n_tasks` (line
59), but line 93 rebinds `n_concepts` to `sample[2].shape[-1]` (here
`sampleCDim`) and `n_tasks` to the literal `200`; the training calls
therefore use `sampleCDim`. -/
structure Oracle where
  nConceptsGen : Int
  nTasksGen : Int
  sampleCDim : Int
  updateStats : Stats → Dict → Nat × Nat → Stats

/-- Arguments of the ablation `main` (lines 16-23). -/
structure Args where
  rerun : Bool
  resultDir : String
  projectName : String
  activationFreq : Int
  numWorkers : Int
  singleFrequencyEpochs : Int
  globalParams : List (String × Value)

/-- Default argument values of the Python signature. -/
def defaultArgs : Args :=
  { rerun := false
    resultDir := "results/cub_emb_size_ablation/"
    projectName := ""
    activationFreq := 0
    numWorkers := 8
    singleFrequencyEpochs := 0
    globalParams := [] }

/-- Trace events of the ablation `main`, in program order. `ensureCell`
records the cell-insertion lines 103-106. -/
inductive Event where
  | extendParams (cfg : Dict)
  | generateData (cfg : Dict)
  | saveNpy (path : String)
  | ensureCell (split : Nat) (emb : Int)
  | train (callId : Nat) (fn : String) (split : Nat) (emb : Int) (cfg : Dict)
  | update (callId : Nat) (slot : Nat) (split : Nat) (emb : Int) (cfg : Dict)
  | dump (path : String) (snapshot : Res)
  deriving DecidableEq, Repr

/-- The embedding sizes of the inner loop (line 102). -/
def embList : List Int := [1, 2, 4, 6, 8, 16, 32, 64]

/-- The `config[...] = ...` lines 114-124 (MixtureEmbModel trial). -/
def mixtureLines (emb : Int) : List SetLine :=
  [("architecture", K (.vstr "MixtureEmbModel")),
   ("extra_name", K (.vstr ("SharedProb_AdaptiveDropout_NoProbConcat_emb_size_" ++ toString emb))),
   ("shared_prob_gen", K (.vbool true)),
   ("sigmoidal_prob", K (.vbool false)),
   ("sigmoidal_embedding", K (.vbool false)),
   ("training_intervention_prob", K (.vfloat 25 (-2))),
   ("concat_prob", K (.vbool false)),
   ("emb_size", K (.vint emb)),
   ("embeding_activation", K (.vstr "leakyrelu"))]

/-- The `config[...] = ...` lines 151-160 (fuzzy CBM with extra
capacity); `extra_dims = (emb_size - 1) * n_concepts` uses the loop
variable and the rebound `n_concepts`. -/
def fuzzyLines (n emb : Int) : List SetLine :=
  [("architecture", K (.vstr "ConceptBottleneckModel")),
   ("bool", K (.vbool false)),
   ("extra_dims", K (.vint ((emb - 1) * n))),
   ("extra_name", K (.vstr ("FuzzyExtraCapacity_Logit_emb_size_" ++ toString emb))),
   ("bottleneck_nonlinear", K (.vstr "leakyrelu")),
   ("sigmoidal_extra_capacity", K (.vbool false)),
   ("sigmoidal_prob", K (.vbool false)),
   ("emb_size", K (.vint emb))]

/-- The `config[...] = ...` lines 188-196 (no-concept-supervision CBM
with extra capacity). -/
def noSupLines (n emb : Int) : List SetLine :=
  [("architecture", K (.vstr "ConceptBottleneckModel")),
   ("extra_name", K (.vstr ("NoConceptSupervisionReLU_ExtraCapacity_emb_size_" ++ toString emb))),
   ("bool", K (.vbool false)),
   ("extra_dims", K (.vint ((emb - 1) * n))),
   ("bottleneck_nonlinear", K (.vstr "leakyrelu")),
   ("concept_loss_weight", K (.vint 0)),
   ("emb_size", K (.vint emb))]

/-- Value of the MixtureEmbModel variant configuration. -/
def cfgMixture (emb : Int) (og : Dict) : Dict := applySets og (mixtureLines emb)

/-- Value of the fuzzy extra-capacity variant configuration. -/
def cfgFuzzy (n emb : Int) (og : Dict) : Dict := applySets og (fuzzyLines n emb)

/-- Value of the no-concept-supervision variant configuration. -/
def cfgNoSup (n emb : Int) (og : Dict) : Dict := applySets og (noSupLines n emb)

/-- Loop state of the ablation `main`. -/
structure St where
  heap : PyHeap
  results : Res
  events : List Event
  nextId : Nat

/-- One variant block with its `train_model` and `update_statistics`
calls, recording into `results[emb_size][f-split]`. -/
def trainUpdateStepAb (o : Oracle) (split : Nat) (emb : Int) (lines : List SetLine)
    (st : St) : St :=
  let hr := runVariantBlock st.heap lines
  let cfg := readRef hr.1 hr.2
  let skey := toString split
  let sub := (assocGet st.results emb).getD []
  let stats := (assocGet sub skey).getD []
  { heap := hr.1
    results := assocSet st.results emb (assocSet sub skey (o.updateStats stats cfg (st.nextId, 0)))
    events := st.events ++ [.train st.nextId "train_model" split emb cfg,
                            .update st.nextId 0 split emb cfg]
    nextId := st.nextId + 1 }

/-- Lines 103-106: insert missing `results[emb_size]` and
`results[emb_size][f-split]` cells. -/
def ensureCells (res : Res) (emb : Int) (skey : String) : Res :=
  let res0 := if (assocGet res emb).isSome then res else assocSet res emb []
  let sub0 := (assocGet res0 emb).getD []
  if (assocGet sub0 skey).isSome then res0 else assocSet res0 emb (assocSet sub0 skey [])

/-- Body of the inner `for emb_size in [1, 2, 4, 6, 8, 16, 32, 64]`
loop (lines 102-222): ensure the results cells, run the three variant
blocks, and dump the cumulative results. -/
def iterBody (o : Oracle) (a : Args) (st : St) (se : Nat × Int) : St :=
  let st0 : St := { st with
    results := ensureCells st.results se.2 (toString se.1),
    events := st.events ++ [.ensureCell se.1 se.2] }
  let st1 := trainUpdateStepAb o se.1 se.2 (mixtureLines se.2) st0
  let st2 := trainUpdateStepAb o se.1 se.2 (fuzzyLines o.sampleCDim se.2) st1
  let st3 := trainUpdateStepAb o se.1 se.2 (noSupLines o.sampleCDim se.2) st2
  { st3 with
    events := st3.events ++ [.dump (joinPath a.resultDir "results.joblib") st3.results] }

/-- The `np.save` calls of lines 65-90, identical in structure to the
ones in `train_cub.py`. -/
def actsSaveEventsAb (resultDir : String) (activationFreq : Int) : List Event :=
  if resultDir ≠ "" ∧ activationFreq ≠ 0 then
    ["test", "val"].flatMap (fun nm =>
      ["x_", "y_", "c_"].map (fun p =>
        Event.saveNpy (joinPath (joinPath resultDir "test_embedding_acts") (p ++ nm ++ ".npy"))))
  else []

/-- The base configuration after the single `extend_with_global_params`
call (line 58). -/
def ogFull (a : Args) : Dict :=
  extend_with_global_params (abOgConfig a.numWorkers) a.globalParams

/-- The loop bound `og_config["cv"]` (line 101). -/
def cv (a : Args) : Nat := (pyInt (assocGet (ogFull a) "cv")).toNat

/-- Events before the double loop. -/
def preEvents (a : Args) : List Event :=
  [Event.extendParams (ogFull a), Event.generateData (ogFull a)]
  ++ actsSaveEventsAb a.resultDir a.activationFreq

/-- The iteration pairs of the double loop, in execution order: splits
outer, embedding sizes inner. -/
def iters (cvN : Nat) : List (Nat × Int) :=
  (List.range cvN).flatMap (fun s => embList.map (fun e => (s, e)))

/-- What the ablation `main` leaves behind. -/
structure Run where
  results : Res
  events : List Event
  heap : PyHeap

/-- Translation of `main` of `cub_emb_size_ablation.py` (lines 16-223):
build `og_config`, apply the overrides, call `generate_data`,
optionally dump activation data, then the nested split/embedding-size
loop, and return `results`. -/
def main (o : Oracle) (a : Args) : Run :=
  let og1 := extend_with_global_params (abOgConfig a.numWorkers) a.globalParams
  let ev := [Event.extendParams og1, Event.generateData og1]
            ++ actsSaveEventsAb a.resultDir a.activationFreq
  let cvN := (pyInt (assocGet og1 "cv")).toNat
  let st := (List.range cvN).foldl
    (fun st1 split => embList.foldl (fun st2 e => iterBody o a st2 (split, e)) st1)
    { heap := { og := og1, copies := [] }, results := [], events := ev, nextId := 0 }
  { results := st.results, events := st.events, heap := st.heap }

/-- Pure update of the results dictionary by one iteration: the ensure
lines followed by the three `update_statistics` calls. -/
def applyIter (o : Oracle) (og : Dict) (nid : Nat) (split : Nat) (emb : Int) (res : Res) :
    Res :=
  let skey := toString split
  let res1 := ensureCells res emb skey
  let sub1 := (assocGet res1 emb).getD []
  let stats1 := (assocGet sub1 skey).getD []
  let s1 := o.updateStats stats1 (cfgMixture emb og) (nid, 0)
  let s2 := o.updateStats s1 (cfgFuzzy o.sampleCDim emb og) (nid + 1, 0)
  let s3 := o.updateStats s2 (cfgNoSup o.sampleCDim emb og) (nid + 2, 0)
  assocSet res1 emb (assocSet sub1 skey s3)

/-- Events of one iteration, with the dump snapshot passed in. -/
def iterEvents (o : Oracle) (resultDir : String) (og : Dict) (nid : Nat) (split : Nat)
    (emb : Int) (snap : Res) : List Event :=
  [.ensureCell split emb,
   .train nid "train_model" split emb (cfgMixture emb og),
   .update nid 0 split emb (cfgMixture emb og),
   .train (nid + 1) "train_model" split emb (cfgFuzzy o.sampleCDim emb og),
   .update (nid + 1) 0 split emb (cfgFuzzy o.sampleCDim emb og),
   .train (nid + 2) "train_model" split emb (cfgNoSup o.sampleCDim emb og),
   .update (nid + 2) 0 split emb (cfgNoSup o.sampleCDim emb og),
   .dump (joinPath resultDir "results.joblib") snap]

/-- The deep copies one iteration allocates, in order. -/
def iterCopies (o : Oracle) (og : Dict) (emb : Int) : List Dict :=
  [cfgMixture emb og, cfgFuzzy o.sampleCDim emb og, cfgNoSup o.sampleCDim emb og]

/-- Pure accumulation of the flattened iteration loop. -/
def loopDeltaAb (o : Oracle) (resultDir : String) (og : Dict) :
    Nat → Res → List (Nat × Int) → Res × List Event × List Dict
  | _, res, [] => (res, [], [])
  | nid, res, se :: rest =>
      let res1 := applyIter o og nid se.1 se.2 res
      let d := loopDeltaAb o resultDir og (nid + 3) res1 rest
      (d.1, iterEvents o resultDir og nid se.1 se.2 res1 ++ d.2.1,
        iterCopies o og se.2 ++ d.2.2)

/-! #### Trace extraction for the ablation script -/

/-- Training calls of a trace: identifier, callee, split, embedding
size and the configuration passed. -/
def trainsOf (evs : List Event) : List (Nat × String × Nat × Int × Dict) :=
  evs.filterMap (fun e => match e with
    | .train i f s emb c => some (i, f, s, emb, c)
    | _ => none)

/-- Configurations passed to training calls, in order. -/
def trainCfgsOf (evs : List Event) : List Dict :=
  evs.filterMap (fun e => match e with
    | .train _ _ _ _ c => some c
    | _ => none)

/-- Summary of each training call: identifier, callee, split, embedding
size, and the `architecture` and `extra_name` entries of its
configuration. -/
def trainSummaryOf (evs : List Event) : List (Nat × String × Nat × Int × String × String) :=
  evs.filterMap (fun e => match e with
    | .train i f s emb c =>
        some (i, f, s, emb, pyStr (assocGet c "architecture"), pyStr (assocGet c "extra_name"))
    | _ => none)

/-- Summary of each `update_statistics` call: identifier, output slot,
and the split and embedding size of the `results[emb_size][f-split]`
cell it writes. -/
def updSummaryOf (evs : List Event) : List (Nat × Nat × Nat × Int) :=
  evs.filterMap (fun e => match e with
    | .update i sl s emb _ => some (i, sl, s, emb)
    | _ => none)

/-- `joblib.dump` calls of a trace. -/
def dumpsOf (evs : List Event) : List (String × Res) :=
  evs.filterMap (fun e => match e with
    | .dump p snap => some (p, snap)
    | _ => none)

/-- `np.save` paths of a trace. -/
def npyOf (evs : List Event) : List String :=
  evs.filterMap (fun e => match e with
    | .saveNpy p => some p
    | _ => none)

/-- Configuration-phase events, as in the `train_cub.py` model. -/
def cfgPhaseOf (evs : List Event) : List (Bool × Dict) :=
  evs.filterMap (fun e => match e with
    | .extendParams c => some (true, c)
    | .generateData c => some (false, c)
    | _ => none)

/-- The `generate_data` call and training calls, in order. -/
def genTrainOf (evs : List Event) : List (Option Nat) :=
  evs.filterMap (fun e => match e with
    | .generateData _ => some none
    | .train i _ _ _ _ => some (some i)
    | _ => none)

/-- The three variant configurations of one iteration, in order. -/
def iterCfgList (o : Oracle) (og : Dict) (e : Int) : List Dict :=
  [cfgMixture e og, cfgFuzzy o.sampleCDim e og, cfgNoSup o.sampleCDim e og]

/-- Expected training-call summaries of one iteration. -/
def iterTrainSummary (nid : Nat) (s : Nat) (e : Int) :
    List (Nat × String × Nat × Int × String × String) :=
  [(nid, "train_model", s, e, "MixtureEmbModel",
      "SharedProb_AdaptiveDropout_NoProbConcat_emb_size_" ++ toString e),
   (nid + 1, "train_model", s, e, "ConceptBottleneckModel",
      "FuzzyExtraCapacity_Logit_emb_size_" ++ toString e),
   (nid + 2, "train_model", s, e, "ConceptBottleneckModel",
      "NoConceptSupervisionReLU_ExtraCapacity_emb_size_" ++ toString e)]

/-- Expected training-call summaries of the whole sweep. -/
def sweepFrom : Nat → List (Nat × Int) → List (Nat × String × Nat × Int × String × String)
  | _, [] => []
  | nid, se :: rest => iterTrainSummary nid se.1 se.2 ++ sweepFrom (nid + 3) rest

/-- Expected `update_statistics` summaries of the whole sweep. -/
def updSweepFrom : Nat → List (Nat × Int) → List (Nat × Nat × Nat × Int)
  | _, [] => []
  | nid, se :: rest =>
      [(nid, 0, se.1, se.2), (nid + 1, 0, se.1, se.2), (nid + 2, 0, se.1, se.2)]
      ++ updSweepFrom (nid + 3) rest

/-- The cumulative results snapshots dumped by the sweep, one per
completed iteration. -/
def deltaDumps (o : Oracle) (og : Dict) : Nat → Res → List (Nat × Int) → List Res
  | _, _, [] => []
  | nid, res, se :: rest =>
      let r1 := applyIter o og nid se.1 se.2 res
      r1 :: deltaDumps o og (nid + 3) r1 rest

/-! #### Temporal checks for ablation traces -/

/-- Identifier of the most recent training call. -/
def lastTrain (init : Option Nat) : List Event → Option Nat
  | [] => init
  | Event.train i _ _ _ _ :: rest => lastTrain (some i) rest
  | _ :: rest => lastTrain init rest

/-- Every update event refers to the training event last seen before
it. -/
def updMatch : Option Nat → List Event → Prop
  | _, [] => True
  | _, Event.train i _ _ _ _ :: rest => updMatch (some i) rest
  | last, Event.update i _ _ _ _ :: rest => last = some i ∧ updMatch last rest
  | last, _ :: rest => updMatch last rest

/-- Counter value after numbering the training calls. -/
def trainEnd : Nat → List Event → Nat
  | c, [] => c
  | c, Event.train _ _ _ _ _ :: rest => trainEnd (c + 1) rest
  | c, _ :: rest => trainEnd c rest

/-- Training calls are numbered sequentially and every update refers to
the immediately preceding training call. -/
def seqOk : Nat → List Event → Prop
  | _, [] => True
  | c, Event.train i _ _ _ _ :: rest => i = c ∧ seqOk (c + 1) rest
  | c, Event.update i _ _ _ _ :: rest => i + 1 = c ∧ seqOk c rest
  | c, _ :: rest => seqOk c rest

/-- Replay of the results-mutating events (cell insertions and
`update_statistics` calls). -/
def replayRes (o : Oracle) : Res → List Event → Res
  | r, [] => r
  | r, Event.ensureCell s emb :: rest => replayRes o (ensureCells r emb (toString s)) rest
  | r, Event.update i sl s emb c :: rest =>
      replayRes o
        (assocSet r emb (assocSet ((assocGet r emb).getD []) (toString s)
          (o.updateStats
            ((assocGet ((assocGet r emb).getD []) (toString s)).getD []) c (i, sl)))) rest
  | r, _ :: rest => replayRes o r rest

/-- Every dump snapshot equals the replay of all results-mutating
events preceding it. -/
def dumpsReplay (o : Oracle) : Res → List Event → Prop
  | _, [] => True
  | r, Event.ensureCell s emb :: rest => dumpsReplay o (ensureCells r emb (toString s)) rest
  | r, Event.update i sl s emb c :: rest =>
      dumpsReplay o
        (assocSet r emb (assocSet ((assocGet r emb).getD []) (toString s)
          (o.updateStats
            ((assocGet ((assocGet r emb).getD []) (toString s)).getD []) c (i, sl)))) rest
  | r, Event.dump _ snap :: rest => snap = r ∧ dumpsReplay o r rest
  | r, _ :: rest => dumpsReplay o r rest

/-! #### Run-level facts for the ablation script -/

/-- Shape check: every top-level key of the ablation results dictionary
is one of the swept embedding sizes and every second-level key is a
split label. -/
def shapeOk (cvN : Nat) (r : Res) : Bool :=
  r.all (fun kv => memB kv.1 embList
    && kv.2.all (fun skv => memB skv.1 ((List.range cvN).map (fun s => toString s))))

end Ablation

/-! ### The claims -/

/-- Formalization of the claimed results shape for `train_cub.py`:
every top-level key of the results dictionary identifies an embedding
size, i.e. equals the printed form of the `emb_size` of one of the
run's training configurations. -/
def specTopKeysAreEmbSizes (r : TrainCub.Run) : Bool :=
  r.results.all (fun kv =>
    memB kv.1 ((TrainCub.trainCfgsOf r.events).map
      (fun c => toString (pyInt (assocGet c "emb_size")))))

/-- A concrete `update_statistics` behaviour for counterexample runs:
it records one metric entry. -/
def exOracle : TrainCub.Oracle :=
  { nConcepts := 112
    nTasks := 200
    updateStats := fun s _ _ => assocSet s "test_acc" (.vint 1) }

/-- A run of `train_cub.py`'s `main` with one cross-validation split
(`-p cv 1`) and otherwise default arguments. -/
def exArgs : TrainCub.Args :=
  { TrainCub.defaultArgs with globalParams := [("cv", .vint 1)] }

/-! ### General lemmas -/

@[simp] theorem assocGet_assocSet_self {κ α : Type} [DecidableEq κ] (l : List (κ × α))
    (k : κ) (v : α) : assocGet (assocSet l k v) k = some v := by
  induction l with
  | nil => simp [assocSet, assocGet]
  | cons hd tl ih =>
      by_cases h : hd.1 = k
      · simp [assocSet, assocGet, h]
      · simp [assocSet, assocGet, h, ih]

@[simp] theorem assocGet_assocSet_of_ne {κ α : Type} [DecidableEq κ] (l : List (κ × α))
    (k k' : κ) (v : α) (h : k' ≠ k) : assocGet (assocSet l k v) k' = assocGet l k' := by
  induction l with
  | nil => simp [assocSet, assocGet, Ne.symm h]
  | cons hd tl ih =>
      obtain ⟨a, b⟩ := hd
      by_cases hk : a = k
      · subst hk
        simp [assocSet, assocGet, Ne.symm h]
      · simp [assocSet, assocGet, hk, ih]

@[simp] theorem assocSet_assocSet_self {κ α : Type} [DecidableEq κ] (l : List (κ × α))
    (k : κ) (v w : α) : assocSet (assocSet l k v) k w = assocSet l k w := by
  induction l with
  | nil => simp [assocSet]
  | cons hd tl ih =>
      by_cases h : hd.1 = k
      · simp [assocSet, h]
      · simp [assocSet, h, ih]

@[simp] theorem memB_eq_true {α : Type} [DecidableEq α] (x : α) (l : List α) :
    memB x l = true ↔ x ∈ l := by
  simp [memB, List.any_eq_true]

theorem list_set_append_last {α : Type} (pre : List α) (cur x : α) :
    (pre ++ [cur]).set pre.length x = pre ++ [x] := by
  induction pre with
  | nil => simp
  | cons hd tl ih => simp [List.set, ih]

theorem list_getD_append_last {α : Type} (pre : List α) (cur d : α) :
    (pre ++ [cur]).getD pre.length d = cur := by
  induction pre with
  | nil => simp
  | cons hd tl ih => simp [ih]

theorem writeFold_spec (sets : List SetLine) (og : Dict) (pre : List Dict) (cur : Dict) :
    sets.foldl
      (fun hh kv => writeKeyRef hh (.copy pre.length) kv.1 (kv.2 (readRef hh (.copy pre.length))))
      { og := og, copies := pre ++ [cur] }
    = { og := og, copies := pre ++ [applySets cur sets] } := by
  induction sets generalizing cur with
  | nil => simp [applySets]
  | cons kv rest ih =>
      have hread : readRef { og := og, copies := pre ++ [cur] } (.copy pre.length) = cur := by
        simp [readRef, list_getD_append_last]
      have hwrite :
          writeKeyRef { og := og, copies := pre ++ [cur] } (.copy pre.length) kv.1 (kv.2 cur)
          = { og := og, copies := pre ++ [assocSet cur kv.1 (kv.2 cur)] } := by
        simp [writeKeyRef, list_getD_append_last, list_set_append_last]
      simp only [List.foldl_cons, hread, hwrite]
      simpa [applySets] using ih (assocSet cur kv.1 (kv.2 cur))

/-- A variant block leaves the base cell untouched, appends exactly one
fresh copy holding the built variant configuration, and returns the
reference to it. -/
theorem runVariantBlock_spec (h : PyHeap) (sets : List SetLine) :
    runVariantBlock h sets
    = ({ og := h.og, copies := h.copies ++ [applySets h.og sets] }, .copy h.copies.length) := by
  have := writeFold_spec sets h.og h.copies h.og
  simp only [runVariantBlock, deepcopy, readRef]
  exact congrArg (fun x => (x, Ref.copy h.copies.length)) this

@[simp] theorem readRef_after_block (h : PyHeap) (sets : List SetLine) :
    readRef (runVariantBlock h sets).1 (runVariantBlock h sets).2 = applySets h.og sets := by
  simp [runVariantBlock_spec, readRef, list_getD_append_last]

@[simp] theorem og_after_block (h : PyHeap) (sets : List SetLine) :
    (runVariantBlock h sets).1.og = h.og := by
  simp [runVariantBlock_spec]

/-- C1: the claim says every dataset name accepted by the command line
(`cub`, `celeba`, `xor`, `trig`, `vec`, `dot`) is dispatched to a data
module and base configuration without the script raising an exception
of its own.  The code contradicts its own argparse declaration: `vec`
is an accepted choice, but the `elif` on line 472 tests for `vector`,
so `vec` falls through to the script's own
`raise ValueError("Unsupported dataset vec!")`; moreover `celeba`,
`xor`, `trig` and `dot` hit `NameError`s on the undefined names
`celeba_data_module` and `SYNTH_CONFIG`. -/
theorem C1_dispatch_raises_own_errors :
    ("vec" ∈ datasetChoices ∧ "vector" ∉ datasetChoices)
    ∧ dispatch "vec" (some "results/") "" = .valueError "Unsupported dataset vec!"
    ∧ dispatch "celeba" (some "results/") "" = .nameError "celeba_data_module"
    ∧ dispatch "xor" (some "results/") "" = .nameError "SYNTH_CONFIG"
    ∧ dispatch "trig" (some "results/") "" = .nameError "SYNTH_CONFIG"
    ∧ dispatch "dot" (some "results/") "" = .nameError "SYNTH_CONFIG"
    ∧ dispatch "cub" (some "results/") ""
      = .ok "cub_data_module" CUB_CONFIG "results/" "" := by
  refine ⟨⟨?_, ?_⟩, ?_, ?_, ?_, ?_, ?_, ?_⟩ <;> decide

/-- C7 counterexample: the claim asserts that dataset `celeba` without
`--output_dir` fails with an `AttributeError` from
`args.output_dir.format(...)`.  In fact line 468
(`data_module = celeba_data_module`) raises a `NameError` on the
undefined name `celeba_data_module` before line 470 is reached, so the
outcome is not an `AttributeError`. -/
theorem C7_counterexample :
    dispatch "celeba" none "" = .nameError "celeba_data_module"
    ∧ (dispatch "celeba" none "").isAttrError = false := by
  refine ⟨?_, ?_⟩ <;> decide

/-- C7 amended: with dataset `cub` and no `--output_dir`, the dispatch
fails with an `AttributeError` at `args.output_dir.format(ds_name="cub")`
(line 465), which runs while `args.output_dir` is still `None` and
before the `results/{ds_name}/` default on lines 493-494 and before
`main` (hence before any data loading or training); with dataset
`celeba` the script instead fails already at line 468 with a
`NameError` on the undefined `celeba_data_module`, whether or not
`--output_dir` is given. -/
theorem C7_amended_cub_attribute_error :
    (∀ pn : String,
      dispatch "cub" none pn = .attributeError "NoneType object has no attribute format")
    ∧ (∀ (od : Option String) (pn : String),
      dispatch "celeba" od pn = .nameError "celeba_data_module") := by
  constructor
  · intro pn
    simp [dispatch]
  · intro od pn
    simp [dispatch]

theorem seqIds_append : ∀ (m s n : Nat), seqIds s m ++ seqIds (s + m) n = seqIds s (m + n)
  | 0, s, n => by simp [seqIds]
  | m + 1, s, n => by
      have h1 : s + (m + 1) = (s + 1) + m := by omega
      have h2 : m + 1 + n = (m + n) + 1 := by omega
      simp only [seqIds, List.cons_append, h1, h2, seqIds_append m (s + 1) n]

theorem all_assocSet {κ α : Type} [DecidableEq κ] (P : κ × α → Bool) (l : List (κ × α))
    (k : κ) (v : α) (hl : l.all P = true) (hkv : P (k, v) = true) :
    (assocSet l k v).all P = true := by
  induction l with
  | nil => simp [assocSet, hkv]
  | cons hd tl ih =>
      simp only [List.all_cons, Bool.and_eq_true] at hl
      by_cases h : hd.1 = k
      · simp [assocSet, h, hl, hkv]
      · simp [assocSet, h, hl, ih hl.2]

theorem all_assocGet {κ α : Type} [DecidableEq κ] (P : κ × α → Bool) (l : List (κ × α))
    (k : κ) (v : α) (hl : l.all P = true) (h : assocGet l k = some v) : P (k, v) = true := by
  induction l with
  | nil => simp [assocGet] at h
  | cons hd tl ih =>
      simp only [List.all_cons, Bool.and_eq_true] at hl
      by_cases hk : hd.1 = k
      · simp only [assocGet, hk, if_pos] at h
        obtain ⟨h1, h2⟩ := hl
        obtain ⟨a, b⟩ := hd
        simp at hk
        subst hk
        cases h
        exact h1
      · simp only [assocGet, hk, if_neg, if_false] at h
        exact ih hl.2 h

namespace TrainCub

theorem trainUpdateStep_spec (o : Oracle) (fn : String) (split : Nat) (lines : List SetLine)
    (st : St) :
    trainUpdateStep o fn split lines st =
    { heap := { og := st.heap.og, copies := st.heap.copies ++ [applySets st.heap.og lines] }
      results := assocSet st.results (toString split)
        (o.updateStats ((assocGet st.results (toString split)).getD [])
          (applySets st.heap.og lines) (st.nextId, 0))
      events := st.events ++
        [.train st.nextId fn split (applySets st.heap.og lines),
         .update st.nextId 0 split (applySets st.heap.og lines)]
      nextId := st.nextId + 1 } := by
  simp [trainUpdateStep, runVariantBlock_spec, readRef, list_getD_append_last]

theorem indSeqStep_spec (o : Oracle) (split : Nat) (st : St) :
    indSeqStep o split st =
    { heap := { og := st.heap.og, copies := st.heap.copies ++ [cfgSeq st.heap.og] }
      results := assocSet st.results (toString split)
        (o.updateStats
          (o.updateStats ((assocGet st.results (toString split)).getD [])
            (cfgInd st.heap.og) (st.nextId, 0))
          (cfgSeq st.heap.og) (st.nextId, 1))
      events := st.events ++
        [.train st.nextId "train_independent_and_sequential_model" split (cfgIndSeqBase st.heap.og),
         .update st.nextId 0 split (cfgInd st.heap.og),
         .update st.nextId 1 split (cfgSeq st.heap.og)]
      nextId := st.nextId + 1 } := by
  simp [indSeqStep, runVariantBlock_spec, readRef, writeKeyRef, list_getD_append_last,
    list_set_append_last, cfgInd, cfgSeq, cfgIndSeqBase]

theorem splitBody_spec (o : Oracle) (a : Args) (st : St) (split : Nat) :
    splitBody o a st split =
    { heap := { og := st.heap.og, copies := st.heap.copies ++ splitCopies o st.heap.og }
      results := assocSet st.results (toString split) (splitStats o st.heap.og st.nextId)
      events := st.events ++ splitEvents o a.resultDir st.heap.og st.nextId split
        (assocSet st.results (toString split) (splitStats o st.heap.og st.nextId))
      nextId := st.nextId + 7 } := by
  simp only [splitBody, trainUpdateStep_spec, indSeqStep_spec]
  simp [splitStats, splitEvents, splitCopies, cfgCem, cfgNoRandInt, cfgFuzzyExtra, cfgFuzzy,
    cfgBool, cfgIndSeqBase, cfgInd, cfgSeq, cfgNoSup, List.append_assoc]

set_option maxHeartbeats 1600000 in
theorem runSplits_spec (o : Oracle) (a : Args) (l : List Nat) (st : St) :
    runSplits o a st l =
    { heap := { og := st.heap.og,
                copies := st.heap.copies ++
                  (loopDelta o a.resultDir st.heap.og st.nextId st.results l).2.2 }
      results := (loopDelta o a.resultDir st.heap.og st.nextId st.results l).1
      events := st.events ++ (loopDelta o a.resultDir st.heap.og st.nextId st.results l).2.1
      nextId := st.nextId + 7 * l.length } := by
  induction l generalizing st with
  | nil =>
      simp only [runSplits, List.foldl_nil, loopDelta, List.length_nil, Nat.mul_zero,
        Nat.add_zero, List.append_nil]
  | cons s rest ih =>
      simp only [runSplits, List.foldl_cons] at ih ⊢
      rw [splitBody_spec, ih]
      simp only [loopDelta, List.length_cons, List.append_assoc, St.mk.injEq, PyHeap.mk.injEq]
      repeat' apply And.intro
      all_goals first | trivial | omega

set_option maxHeartbeats 1600000 in
/-- The whole-run characterization of `main`: pre-loop events followed
by the loop's accumulation, with the base configuration cell unchanged. -/
theorem main_spec (o : Oracle) (a : Args) :
    main o a =
    { results := (loopDelta o a.resultDir (ogFull a) 0 [] (List.range (cv a))).1
      events := preEvents a ++ (loopDelta o a.resultDir (ogFull a) 0 [] (List.range (cv a))).2.1
      heap := { og := ogFull a,
                copies := (loopDelta o a.resultDir (ogFull a) 0 [] (List.range (cv a))).2.2 } } := by
  simp only [main]
  rw [runSplits_spec]
  simp [ogFull, ogExt1, cv, preEvents, List.append_assoc]

theorem trainsOf_delta_tc (o : Oracle) (rd : String) (og : Dict) :
    ∀ (l : List Nat) (nid : Nat) (res : Res),
      trainsOf (loopDelta o rd og nid res l).2.1 = deltaTrains o og nid l
  | [], nid, res => by simp [loopDelta, trainsOf, deltaTrains]
  | s :: rest, nid, res => by
      simp [loopDelta, trainsOf, deltaTrains, splitEvents, splitTrainList,
        List.filterMap_append]
      exact trainsOf_delta_tc o rd og rest (nid + 7) _

theorem trainCfgsOf_delta_tc (o : Oracle) (rd : String) (og : Dict) :
    ∀ (l : List Nat) (nid : Nat) (res : Res),
      trainCfgsOf (loopDelta o rd og nid res l).2.1
      = l.flatMap (fun _ => variantCfgList o og)
  | [], nid, res => by simp [loopDelta, trainCfgsOf]
  | s :: rest, nid, res => by
      simp [loopDelta, trainCfgsOf, splitEvents, variantCfgList, List.filterMap_append]
      exact trainCfgsOf_delta_tc o rd og rest (nid + 7) _

theorem dumpsOf_delta_tc (o : Oracle) (rd : String) (og : Dict) :
    ∀ (l : List Nat) (nid : Nat) (res : Res),
      dumpsOf (loopDelta o rd og nid res l).2.1
      = (deltaDumps o og nid res l).map (fun r => (joinPath rd "results.joblib", r))
  | [], nid, res => by simp [loopDelta, dumpsOf, deltaDumps]
  | s :: rest, nid, res => by
      simp [loopDelta, dumpsOf, deltaDumps, splitEvents, List.filterMap_append]
      exact dumpsOf_delta_tc o rd og rest (nid + 7) _

theorem npyOf_delta_tc (o : Oracle) (rd : String) (og : Dict) :
    ∀ (l : List Nat) (nid : Nat) (res : Res),
      npyOf (loopDelta o rd og nid res l).2.1 = []
  | [], nid, res => by simp [loopDelta, npyOf]
  | s :: rest, nid, res => by
      have ih := npyOf_delta_tc o rd og rest (nid + 7)
        (assocSet res (toString s) (splitStats o og nid))
      simpa [loopDelta, npyOf, splitEvents, List.filterMap_append] using ih

theorem cfgPhaseOf_delta_tc (o : Oracle) (rd : String) (og : Dict) :
    ∀ (l : List Nat) (nid : Nat) (res : Res),
      cfgPhaseOf (loopDelta o rd og nid res l).2.1 = []
  | [], nid, res => by simp [loopDelta, cfgPhaseOf]
  | s :: rest, nid, res => by
      have ih := cfgPhaseOf_delta_tc o rd og rest (nid + 7)
        (assocSet res (toString s) (splitStats o og nid))
      simpa [loopDelta, cfgPhaseOf, splitEvents, List.filterMap_append] using ih

theorem genTrainOf_delta_tc (o : Oracle) (rd : String) (og : Dict) :
    ∀ (l : List Nat) (nid : Nat) (res : Res),
      genTrainOf (loopDelta o rd og nid res l).2.1
      = (seqIds nid (7 * l.length)).map some
  | [], nid, res => by simp [loopDelta, genTrainOf, seqIds]
  | s :: rest, nid, res => by
      have hm : 7 * (s :: rest).length = 7 + 7 * rest.length := by
        simp [List.length_cons]
        omega
      rw [hm, ← seqIds_append 7 nid (7 * rest.length)]
      simp +arith [loopDelta, genTrainOf, splitEvents, List.filterMap_append, seqIds]
      exact genTrainOf_delta_tc o rd og rest (nid + 7) _

theorem updMatch_append_tc :
    ∀ (l1 l2 : List Event) (last : Option Nat),
      updMatch last (l1 ++ l2) ↔ updMatch last l1 ∧ updMatch (lastTrain last l1) l2
  | [], l2, last => by simp [updMatch, lastTrain]
  | e :: l1, l2, last => by
      cases e <;>
        simp [updMatch, lastTrain, updMatch_append_tc l1 l2, and_assoc]

theorem seqOk_append_tc :
    ∀ (l1 l2 : List Event) (c : Nat),
      seqOk c (l1 ++ l2) ↔ seqOk c l1 ∧ seqOk (trainEnd c l1) l2
  | [], l2, c => by simp [seqOk, trainEnd]
  | e :: l1, l2, c => by
      cases e <;>
        simp [seqOk, trainEnd, seqOk_append_tc l1 l2, and_assoc]

theorem dumpsReplay_append_tc (o : Oracle) :
    ∀ (l1 l2 : List Event) (r : Res),
      dumpsReplay o r (l1 ++ l2) ↔ dumpsReplay o r l1 ∧ dumpsReplay o (replayRes o r l1) l2
  | [], l2, r => by simp [dumpsReplay, replayRes]
  | e :: l1, l2, r => by
      cases e <;>
        simp [dumpsReplay, replayRes, dumpsReplay_append_tc o l1 l2, and_assoc]

theorem updMatch_split_tc (o : Oracle) (rd : String) (og : Dict) (nid s : Nat) (snap : Res)
    (last : Option Nat) : updMatch last (splitEvents o rd og nid s snap) := by
  simp [splitEvents, updMatch]

theorem lastTrain_split_tc (o : Oracle) (rd : String) (og : Dict) (nid s : Nat) (snap : Res)
    (last : Option Nat) : lastTrain last (splitEvents o rd og nid s snap) = some (nid + 6) := by
  simp [splitEvents, lastTrain]

theorem updMatch_delta_tc (o : Oracle) (rd : String) (og : Dict) :
    ∀ (l : List Nat) (nid : Nat) (res : Res) (last : Option Nat),
      updMatch last (loopDelta o rd og nid res l).2.1
  | [], _, _, _ => trivial
  | s :: rest, nid, res, last => by
      show updMatch last (splitEvents o rd og nid s _ ++ _)
      rw [updMatch_append_tc]
      exact ⟨updMatch_split_tc o rd og nid s _ last,
        by rw [lastTrain_split_tc]
           exact updMatch_delta_tc o rd og rest (nid + 7) _ _⟩

theorem seqOk_split_tc (o : Oracle) (rd : String) (og : Dict) (nid s : Nat) (snap : Res) :
    seqOk nid (splitEvents o rd og nid s snap) := by
  simp [splitEvents, seqOk]

theorem trainEnd_split_tc (o : Oracle) (rd : String) (og : Dict) (nid s : Nat) (snap : Res) :
    trainEnd nid (splitEvents o rd og nid s snap) = nid + 7 := by
  simp [splitEvents, trainEnd]

theorem seqOk_delta_tc (o : Oracle) (rd : String) (og : Dict) :
    ∀ (l : List Nat) (nid : Nat) (res : Res), seqOk nid (loopDelta o rd og nid res l).2.1
  | [], _, _ => trivial
  | s :: rest, nid, res => by
      show seqOk nid (splitEvents o rd og nid s _ ++ _)
      rw [seqOk_append_tc]
      exact ⟨seqOk_split_tc o rd og nid s _,
        by rw [trainEnd_split_tc]
           exact seqOk_delta_tc o rd og rest (nid + 7) _⟩

theorem replayRes_split_tc (o : Oracle) (rd : String) (og : Dict) (nid s : Nat) (snap res : Res) :
    replayRes o res (splitEvents o rd og nid s snap)
    = assocSet res (toString s) (splitStats o og nid) := by
  simp [splitEvents, replayRes, splitStats]

theorem dumpsReplay_split_tc (o : Oracle) (rd : String) (og : Dict) (nid s : Nat) (res : Res) :
    dumpsReplay o res
      (splitEvents o rd og nid s (assocSet res (toString s) (splitStats o og nid))) := by
  simp [splitEvents, dumpsReplay, splitStats]

theorem dumpsReplay_delta_tc (o : Oracle) (rd : String) (og : Dict) :
    ∀ (l : List Nat) (nid : Nat) (res : Res),
      dumpsReplay o res (loopDelta o rd og nid res l).2.1
  | [], _, _ => trivial
  | s :: rest, nid, res => by
      show dumpsReplay o res (splitEvents o rd og nid s _ ++ _)
      rw [dumpsReplay_append_tc]
      refine ⟨dumpsReplay_split_tc o rd og nid s res, ?_⟩
      rw [replayRes_split_tc]
      exact dumpsReplay_delta_tc o rd og rest (nid + 7) _

theorem npyOf_append_tc (l1 l2 : List Event) : npyOf (l1 ++ l2) = npyOf l1 ++ npyOf l2 := by
  simp [npyOf]

theorem cfgPhaseOf_append_tc (l1 l2 : List Event) :
    cfgPhaseOf (l1 ++ l2) = cfgPhaseOf l1 ++ cfgPhaseOf l2 := by
  simp [cfgPhaseOf]

theorem genTrainOf_append_tc (l1 l2 : List Event) :
    genTrainOf (l1 ++ l2) = genTrainOf l1 ++ genTrainOf l2 := by
  simp [genTrainOf]

theorem trainsOf_append_tc (l1 l2 : List Event) :
    trainsOf (l1 ++ l2) = trainsOf l1 ++ trainsOf l2 := by
  simp [trainsOf]

theorem trainCfgsOf_append_tc (l1 l2 : List Event) :
    trainCfgsOf (l1 ++ l2) = trainCfgsOf l1 ++ trainCfgsOf l2 := by
  simp [trainCfgsOf]

theorem dumpsOf_append_tc (l1 l2 : List Event) :
    dumpsOf (l1 ++ l2) = dumpsOf l1 ++ dumpsOf l2 := by
  simp [dumpsOf]

theorem npyOf_acts_tc (rd : String) (f : Int) :
    npyOf (actsSaveEvents rd f) = if rd ≠ "" ∧ f ≠ 0 then npyPaths rd else [] := by
  by_cases h : rd ≠ "" ∧ f ≠ 0 <;>
    simp [actsSaveEvents, npyOf, npyPaths, h]

theorem cfgPhaseOf_acts_tc (rd : String) (f : Int) : cfgPhaseOf (actsSaveEvents rd f) = [] := by
  by_cases h : rd ≠ "" ∧ f ≠ 0 <;> simp [actsSaveEvents, cfgPhaseOf, h]

theorem genTrainOf_acts_tc (rd : String) (f : Int) : genTrainOf (actsSaveEvents rd f) = [] := by
  by_cases h : rd ≠ "" ∧ f ≠ 0 <;> simp [actsSaveEvents, genTrainOf, h]

theorem trainsOf_acts_tc (rd : String) (f : Int) : trainsOf (actsSaveEvents rd f) = [] := by
  by_cases h : rd ≠ "" ∧ f ≠ 0 <;> simp [actsSaveEvents, trainsOf, h]

theorem trainCfgsOf_acts_tc (rd : String) (f : Int) : trainCfgsOf (actsSaveEvents rd f) = [] := by
  by_cases h : rd ≠ "" ∧ f ≠ 0 <;> simp [actsSaveEvents, trainCfgsOf, h]

theorem dumpsOf_acts_tc (rd : String) (f : Int) : dumpsOf (actsSaveEvents rd f) = [] := by
  by_cases h : rd ≠ "" ∧ f ≠ 0 <;> simp [actsSaveEvents, dumpsOf, h]

theorem npyOf_main_tc (o : Oracle) (a : Args) :
    npyOf (main o a).events
    = if a.resultDir ≠ "" ∧ a.activationFreq ≠ 0 then npyPaths a.resultDir else [] := by
  rw [main_spec]
  simp only [preEvents, List.append_assoc, npyOf_append_tc, npyOf_acts_tc,
    npyOf_delta_tc o a.resultDir (ogFull a) (List.range (cv a)) 0 []]
  simp [npyOf]

theorem cfgPhaseOf_main_tc (o : Oracle) (a : Args) :
    cfgPhaseOf (main o a).events
    = [(true, ogExt1 a), (true, ogFull a), (false, ogFull a)] := by
  rw [main_spec]
  simp only [preEvents, List.append_assoc, cfgPhaseOf_append_tc, cfgPhaseOf_acts_tc,
    cfgPhaseOf_delta_tc o a.resultDir (ogFull a) (List.range (cv a)) 0 []]
  simp [cfgPhaseOf]

theorem genTrainOf_main_tc (o : Oracle) (a : Args) :
    genTrainOf (main o a).events = none :: (seqIds 0 (7 * cv a)).map some := by
  rw [main_spec]
  simp only [preEvents, List.append_assoc, genTrainOf_append_tc, genTrainOf_acts_tc,
    genTrainOf_delta_tc o a.resultDir (ogFull a) (List.range (cv a)) 0 []]
  simp [genTrainOf]

theorem trainsOf_main_tc (o : Oracle) (a : Args) :
    trainsOf (main o a).events = deltaTrains o (ogFull a) 0 (List.range (cv a)) := by
  rw [main_spec]
  simp only [preEvents, List.append_assoc, trainsOf_append_tc, trainsOf_acts_tc,
    trainsOf_delta_tc o a.resultDir (ogFull a) (List.range (cv a)) 0 []]
  simp [trainsOf]

theorem trainCfgsOf_main_tc (o : Oracle) (a : Args) :
    trainCfgsOf (main o a).events
    = (List.range (cv a)).flatMap (fun _ => variantCfgList o (ogFull a)) := by
  rw [main_spec]
  simp only [preEvents, List.append_assoc, trainCfgsOf_append_tc, trainCfgsOf_acts_tc,
    trainCfgsOf_delta_tc o a.resultDir (ogFull a) (List.range (cv a)) 0 []]
  simp [trainCfgsOf]

theorem dumpsOf_main_tc (o : Oracle) (a : Args) :
    dumpsOf (main o a).events
    = (deltaDumps o (ogFull a) 0 [] (List.range (cv a))).map
        (fun r => (joinPath a.resultDir "results.joblib", r)) := by
  rw [main_spec]
  simp only [preEvents, List.append_assoc, dumpsOf_append_tc, dumpsOf_acts_tc,
    dumpsOf_delta_tc o a.resultDir (ogFull a) (List.range (cv a)) 0 []]
  simp [dumpsOf]

theorem updMatch_acts_tc (rd : String) (f : Int) (last : Option Nat) (l : List Event) :
    updMatch last (actsSaveEvents rd f ++ l) ↔ updMatch last l := by
  rw [updMatch_append_tc]
  by_cases h : rd ≠ "" ∧ f ≠ 0 <;> simp [actsSaveEvents, h, updMatch, lastTrain]

theorem updMatch_main_tc (o : Oracle) (a : Args) : updMatch none (main o a).events := by
  rw [main_spec]
  simp only [preEvents, List.append_assoc]
  show updMatch none ([Event.extendParams (ogExt1 a), Event.extendParams (ogFull a),
    Event.generateData (ogFull a)] ++ (actsSaveEvents a.resultDir a.activationFreq ++ _))
  rw [updMatch_append_tc]
  refine ⟨by simp [updMatch], ?_⟩
  rw [show lastTrain none [Event.extendParams (ogExt1 a), Event.extendParams (ogFull a),
    Event.generateData (ogFull a)] = none from rfl]
  rw [updMatch_acts_tc]
  exact updMatch_delta_tc o a.resultDir (ogFull a) (List.range (cv a)) 0 [] none

theorem seqOk_acts_tc (rd : String) (f : Int) (c : Nat) (l : List Event) :
    seqOk c (actsSaveEvents rd f ++ l) ↔ seqOk c l := by
  rw [seqOk_append_tc]
  by_cases h : rd ≠ "" ∧ f ≠ 0 <;> simp [actsSaveEvents, h, seqOk, trainEnd]

theorem seqOk_main_tc (o : Oracle) (a : Args) : seqOk 0 (main o a).events := by
  rw [main_spec]
  simp only [preEvents, List.append_assoc]
  show seqOk 0 ([Event.extendParams (ogExt1 a), Event.extendParams (ogFull a),
    Event.generateData (ogFull a)] ++ (actsSaveEvents a.resultDir a.activationFreq ++ _))
  rw [seqOk_append_tc]
  refine ⟨by simp [seqOk], ?_⟩
  rw [show trainEnd 0 [Event.extendParams (ogExt1 a), Event.extendParams (ogFull a),
    Event.generateData (ogFull a)] = 0 from rfl]
  rw [seqOk_acts_tc]
  exact seqOk_delta_tc o a.resultDir (ogFull a) (List.range (cv a)) 0 []

theorem dumpsReplay_acts_tc (o : Oracle) (rd : String) (f : Int) (r : Res) (l : List Event) :
    dumpsReplay o r (actsSaveEvents rd f ++ l) ↔ dumpsReplay o r l := by
  rw [dumpsReplay_append_tc]
  by_cases h : rd ≠ "" ∧ f ≠ 0 <;> simp [actsSaveEvents, h, dumpsReplay, replayRes]

theorem dumpsReplay_main_tc (o : Oracle) (a : Args) : dumpsReplay o [] (main o a).events := by
  rw [main_spec]
  simp only [preEvents, List.append_assoc]
  show dumpsReplay o [] ([Event.extendParams (ogExt1 a), Event.extendParams (ogFull a),
    Event.generateData (ogFull a)] ++ (actsSaveEvents a.resultDir a.activationFreq ++ _))
  rw [dumpsReplay_append_tc]
  refine ⟨by simp [dumpsReplay], ?_⟩
  rw [show replayRes o [] [Event.extendParams (ogExt1 a), Event.extendParams (ogFull a),
    Event.generateData (ogFull a)] = [] from rfl]
  rw [dumpsReplay_acts_tc]
  exact dumpsReplay_delta_tc o a.resultDir (ogFull a) (List.range (cv a)) 0 []

theorem delta_res_eq_last_tc (o : Oracle) (rd : String) (og : Dict) :
    ∀ (l : List Nat) (nid : Nat) (res : Res),
      (loopDelta o rd og nid res l).1 = (deltaDumps o og nid res l).getLast?.getD res
  | [], nid, res => by simp [loopDelta, deltaDumps]
  | s :: rest, nid, res => by
      simp only [loopDelta, deltaDumps]
      rw [delta_res_eq_last_tc o rd og rest (nid + 7)]
      cases hL : deltaDumps o og (nid + 7) (assocSet res (toString s) (splitStats o og nid)) rest with
      | nil => simp [hL]
      | cons x xs =>
          rw [List.getLast?_cons_cons]
          cases hG : (x :: xs).getLast? with
          | none => simp [List.getLast?_eq_none_iff] at hG
          | some y => simp [hG]

theorem deltaDumps_length_tc (o : Oracle) (og : Dict) :
    ∀ (l : List Nat) (nid : Nat) (res : Res), (deltaDumps o og nid res l).length = l.length
  | [], _, _ => rfl
  | s :: rest, nid, res => by
      simp [deltaDumps, deltaDumps_length_tc o og rest (nid + 7)]

theorem resShape_delta_tc (o : Oracle) (rd : String) (og : Dict) (cvN : Nat) :
    ∀ (l : List Nat) (nid : Nat) (res : Res),
      (∀ s ∈ l, s < cvN) → resKeysOk cvN res = true →
      resKeysOk cvN (loopDelta o rd og nid res l).1 = true
      ∧ ∀ r ∈ deltaDumps o og nid res l, resKeysOk cvN r = true
  | [], nid, res, _, hres => ⟨hres, by simp [deltaDumps]⟩
  | s :: rest, nid, res, hl, hres => by
      have hs : s < cvN := hl s (by simp)
      have hres1 : resKeysOk cvN (assocSet res (toString s) (splitStats o og nid)) = true := by
        refine all_assocSet _ res (toString s) (splitStats o og nid) hres ?_
        simp only [memB_eq_true]
        exact List.mem_map_of_mem _ (List.mem_range.mpr hs)
      have ih := resShape_delta_tc o rd og cvN rest (nid + 7)
        (assocSet res (toString s) (splitStats o og nid))
        (fun x hx => hl x (by simp [hx])) hres1
      refine ⟨by simpa [loopDelta] using ih.1, ?_⟩
      intro r hr
      simp only [deltaDumps, List.mem_cons] at hr
      rcases hr with hr | hr
      · exact hr ▸ hres1
      · exact ih.2 r hr

theorem extraDims_cfgFuzzyExtra_tc (n : Int) (og : Dict) :
    assocGet (cfgFuzzyExtra n og) "extra_dims"
    = some (.vint ((pyInt (assocGet og "emb_size") - 1) * n)) := by
  simp +decide [cfgFuzzyExtra, fuzzyExtraLines, applySets, K]

theorem extraDims_cfgNoSup_tc (n : Int) (og : Dict) :
    assocGet (cfgNoSup n og) "extra_dims"
    = some (.vint ((pyInt (assocGet og "emb_size") - 1) * n)) := by
  simp +decide [cfgNoSup, noSupLines, applySets, K]

end TrainCub

namespace Ablation

theorem abTrainUpdateStep_spec (o : Oracle) (split : Nat) (emb : Int) (lines : List SetLine)
    (st : St) :
    trainUpdateStepAb o split emb lines st =
    { heap := { og := st.heap.og, copies := st.heap.copies ++ [applySets st.heap.og lines] }
      results := assocSet st.results emb
        (assocSet ((assocGet st.results emb).getD []) (toString split)
          (o.updateStats
            ((assocGet ((assocGet st.results emb).getD []) (toString split)).getD [])
            (applySets st.heap.og lines) (st.nextId, 0)))
      events := st.events ++
        [.train st.nextId "train_model" split emb (applySets st.heap.og lines),
         .update st.nextId 0 split emb (applySets st.heap.og lines)]
      nextId := st.nextId + 1 } := by
  simp [trainUpdateStepAb, runVariantBlock_spec, readRef, list_getD_append_last]

theorem abIterBody_spec (o : Oracle) (a : Args) (st : St) (se : Nat × Int) :
    iterBody o a st se =
    { heap := { og := st.heap.og, copies := st.heap.copies ++ iterCopies o st.heap.og se.2 }
      results := applyIter o st.heap.og st.nextId se.1 se.2 st.results
      events := st.events ++ iterEvents o a.resultDir st.heap.og st.nextId se.1 se.2
        (applyIter o st.heap.og st.nextId se.1 se.2 st.results)
      nextId := st.nextId + 3 } := by
  simp only [iterBody, abTrainUpdateStep_spec]
  simp [applyIter, iterEvents, iterCopies, cfgMixture, cfgFuzzy, cfgNoSup,
    List.append_assoc]

theorem foldl_flatMap_eq {α β σ : Type} (l : List α) (g : α → List β) (f : σ → β → σ)
    (init : σ) :
    (l.flatMap g).foldl f init = l.foldl (fun s a => (g a).foldl f s) init := by
  induction l generalizing init with
  | nil => simp
  | cons hd tl ih => simp [List.flatMap_cons, List.foldl_append, ih]

set_option maxHeartbeats 1600000 in
theorem abRunIters_spec (o : Oracle) (a : Args) (l : List (Nat × Int)) (st : St) :
    l.foldl (iterBody o a) st =
    { heap := { og := st.heap.og,
                copies := st.heap.copies ++
                  (loopDeltaAb o a.resultDir st.heap.og st.nextId st.results l).2.2 }
      results := (loopDeltaAb o a.resultDir st.heap.og st.nextId st.results l).1
      events := st.events ++ (loopDeltaAb o a.resultDir st.heap.og st.nextId st.results l).2.1
      nextId := st.nextId + 3 * l.length } := by
  induction l generalizing st with
  | nil =>
      simp only [List.foldl_nil, loopDeltaAb, List.length_nil, Nat.mul_zero,
        Nat.add_zero, List.append_nil]
  | cons se rest ih =>
      simp only [List.foldl_cons]
      rw [abIterBody_spec, ih]
      simp only [loopDeltaAb, List.length_cons, List.append_assoc, St.mk.injEq,
        PyHeap.mk.injEq]
      repeat' apply And.intro
      all_goals first | trivial | omega

set_option maxHeartbeats 1600000 in
/-- The whole-run characterization of the ablation `main`. -/
theorem abMain_spec (o : Oracle) (a : Args) :
    main o a =
    { results := (loopDeltaAb o a.resultDir (ogFull a) 0 [] (iters (cv a))).1
      events := preEvents a ++ (loopDeltaAb o a.resultDir (ogFull a) 0 [] (iters (cv a))).2.1
      heap := { og := ogFull a,
                copies := (loopDeltaAb o a.resultDir (ogFull a) 0 [] (iters (cv a))).2.2 } } := by
  simp only [main]
  have hflat :
      ∀ (init : St) (cvN : Nat),
        (List.range cvN).foldl
          (fun st1 split => embList.foldl (fun st2 e => iterBody o a st2 (split, e)) st1) init
        = (iters cvN).foldl (iterBody o a) init := by
    intro init cvN
    rw [iters, foldl_flatMap_eq]
    have hfun :
        (fun (st1 : St) (split : Nat) =>
          embList.foldl (fun st2 e => iterBody o a st2 (split, e)) st1)
        = (fun (s : St) (p : Nat) => (embList.map (fun e => (p, e))).foldl (iterBody o a) s) := by
      funext st1 split
      rw [List.foldl_map]
    rw [hfun]
  rw [hflat, abRunIters_spec]
  simp [ogFull, cv, preEvents, List.append_assoc]

theorem arch_cfgMixture_ab (e : Int) (og : Dict) :
    assocGet (cfgMixture e og) "architecture" = some (.vstr "MixtureEmbModel") := by
  simp +decide [cfgMixture, mixtureLines, applySets, K]

theorem name_cfgMixture_ab (e : Int) (og : Dict) :
    assocGet (cfgMixture e og) "extra_name"
    = some (.vstr ("SharedProb_AdaptiveDropout_NoProbConcat_emb_size_" ++ toString e)) := by
  simp +decide [cfgMixture, mixtureLines, applySets, K]

theorem arch_cfgFuzzy_ab (n e : Int) (og : Dict) :
    assocGet (cfgFuzzy n e og) "architecture" = some (.vstr "ConceptBottleneckModel") := by
  simp +decide [cfgFuzzy, fuzzyLines, applySets, K]

theorem name_cfgFuzzy_ab (n e : Int) (og : Dict) :
    assocGet (cfgFuzzy n e og) "extra_name"
    = some (.vstr ("FuzzyExtraCapacity_Logit_emb_size_" ++ toString e)) := by
  simp +decide [cfgFuzzy, fuzzyLines, applySets, K]

theorem arch_cfgNoSup_ab (n e : Int) (og : Dict) :
    assocGet (cfgNoSup n e og) "architecture" = some (.vstr "ConceptBottleneckModel") := by
  simp +decide [cfgNoSup, noSupLines, applySets, K]

theorem name_cfgNoSup_ab (n e : Int) (og : Dict) :
    assocGet (cfgNoSup n e og) "extra_name"
    = some (.vstr ("NoConceptSupervisionReLU_ExtraCapacity_emb_size_" ++ toString e)) := by
  simp +decide [cfgNoSup, noSupLines, applySets, K]

theorem extraDims_cfgFuzzy_ab (n e : Int) (og : Dict) :
    assocGet (cfgFuzzy n e og) "extra_dims" = some (.vint ((e - 1) * n)) := by
  simp +decide [cfgFuzzy, fuzzyLines, applySets, K]

theorem extraDims_cfgNoSup_ab (n e : Int) (og : Dict) :
    assocGet (cfgNoSup n e og) "extra_dims" = some (.vint ((e - 1) * n)) := by
  simp +decide [cfgNoSup, noSupLines, applySets, K]

theorem embSize_cfgFuzzy_ab (n e : Int) (og : Dict) :
    assocGet (cfgFuzzy n e og) "emb_size" = some (.vint e) := by
  simp +decide [cfgFuzzy, fuzzyLines, applySets, K]

theorem embSize_cfgNoSup_ab (n e : Int) (og : Dict) :
    assocGet (cfgNoSup n e og) "emb_size" = some (.vint e) := by
  simp +decide [cfgNoSup, noSupLines, applySets, K]

theorem embSize_cfgMixture_ab (e : Int) (og : Dict) :
    assocGet (cfgMixture e og) "emb_size" = some (.vint e) := by
  simp +decide [cfgMixture, mixtureLines, applySets, K]

theorem trainSummaryOf_delta_ab (o : Oracle) (rd : String) (og : Dict) :
    ∀ (l : List (Nat × Int)) (nid : Nat) (res : Res),
      trainSummaryOf (loopDeltaAb o rd og nid res l).2.1 = sweepFrom nid l
  | [], nid, res => by simp [loopDeltaAb, trainSummaryOf, sweepFrom]
  | se :: rest, nid, res => by
      simp [loopDeltaAb, trainSummaryOf, sweepFrom, iterEvents, iterTrainSummary,
        List.filterMap_append, arch_cfgMixture_ab, name_cfgMixture_ab, arch_cfgFuzzy_ab,
        name_cfgFuzzy_ab, arch_cfgNoSup_ab, name_cfgNoSup_ab, pyStr]
      exact trainSummaryOf_delta_ab o rd og rest (nid + 3) _

theorem updSummaryOf_delta_ab (o : Oracle) (rd : String) (og : Dict) :
    ∀ (l : List (Nat × Int)) (nid : Nat) (res : Res),
      updSummaryOf (loopDeltaAb o rd og nid res l).2.1 = updSweepFrom nid l
  | [], nid, res => by simp [loopDeltaAb, updSummaryOf, updSweepFrom]
  | se :: rest, nid, res => by
      simp [loopDeltaAb, updSummaryOf, updSweepFrom, iterEvents, List.filterMap_append]
      exact updSummaryOf_delta_ab o rd og rest (nid + 3) _

theorem trainCfgsOf_delta_ab (o : Oracle) (rd : String) (og : Dict) :
    ∀ (l : List (Nat × Int)) (nid : Nat) (res : Res),
      trainCfgsOf (loopDeltaAb o rd og nid res l).2.1
      = l.flatMap (fun se => iterCfgList o og se.2)
  | [], nid, res => by simp [loopDeltaAb, trainCfgsOf]
  | se :: rest, nid, res => by
      simp [loopDeltaAb, trainCfgsOf, iterEvents, iterCfgList, List.filterMap_append]
      exact trainCfgsOf_delta_ab o rd og rest (nid + 3) _

theorem dumpsOf_delta_ab (o : Oracle) (rd : String) (og : Dict) :
    ∀ (l : List (Nat × Int)) (nid : Nat) (res : Res),
      dumpsOf (loopDeltaAb o rd og nid res l).2.1
      = (deltaDumps o og nid res l).map (fun r => (joinPath rd "results.joblib", r))
  | [], nid, res => by simp [loopDeltaAb, dumpsOf, deltaDumps]
  | se :: rest, nid, res => by
      simp [loopDeltaAb, dumpsOf, deltaDumps, iterEvents, List.filterMap_append]
      exact dumpsOf_delta_ab o rd og rest (nid + 3) _

theorem npyOf_delta_ab (o : Oracle) (rd : String) (og : Dict) :
    ∀ (l : List (Nat × Int)) (nid : Nat) (res : Res),
      npyOf (loopDeltaAb o rd og nid res l).2.1 = []
  | [], nid, res => by simp [loopDeltaAb, npyOf]
  | se :: rest, nid, res => by
      have ih := npyOf_delta_ab o rd og rest (nid + 3) (applyIter o og nid se.1 se.2 res)
      simpa [loopDeltaAb, npyOf, iterEvents, List.filterMap_append] using ih

theorem cfgPhaseOf_delta_ab (o : Oracle) (rd : String) (og : Dict) :
    ∀ (l : List (Nat × Int)) (nid : Nat) (res : Res),
      cfgPhaseOf (loopDeltaAb o rd og nid res l).2.1 = []
  | [], nid, res => by simp [loopDeltaAb, cfgPhaseOf]
  | se :: rest, nid, res => by
      have ih := cfgPhaseOf_delta_ab o rd og rest (nid + 3) (applyIter o og nid se.1 se.2 res)
      simpa [loopDeltaAb, cfgPhaseOf, iterEvents, List.filterMap_append] using ih

theorem genTrainOf_delta_ab (o : Oracle) (rd : String) (og : Dict) :
    ∀ (l : List (Nat × Int)) (nid : Nat) (res : Res),
      genTrainOf (loopDeltaAb o rd og nid res l).2.1
      = (seqIds nid (3 * l.length)).map some
  | [], nid, res => by simp [loopDeltaAb, genTrainOf, seqIds]
  | se :: rest, nid, res => by
      have hm : 3 * (se :: rest).length = 3 + 3 * rest.length := by
        simp [List.length_cons]
        omega
      rw [hm, ← seqIds_append 3 nid (3 * rest.length)]
      simp +arith [loopDeltaAb, genTrainOf, iterEvents, List.filterMap_append, seqIds]
      exact genTrainOf_delta_ab o rd og rest (nid + 3) _

theorem updMatch_append_ab :
    ∀ (l1 l2 : List Event) (last : Option Nat),
      updMatch last (l1 ++ l2) ↔ updMatch last l1 ∧ updMatch (lastTrain last l1) l2
  | [], l2, last => by simp [updMatch, lastTrain]
  | e :: l1, l2, last => by
      cases e <;>
        simp [updMatch, lastTrain, updMatch_append_ab l1 l2, and_assoc]

theorem seqOk_append_ab :
    ∀ (l1 l2 : List Event) (c : Nat),
      seqOk c (l1 ++ l2) ↔ seqOk c l1 ∧ seqOk (trainEnd c l1) l2
  | [], l2, c => by simp [seqOk, trainEnd]
  | e :: l1, l2, c => by
      cases e <;>
        simp [seqOk, trainEnd, seqOk_append_ab l1 l2, and_assoc]

theorem dumpsReplay_append_ab (o : Oracle) :
    ∀ (l1 l2 : List Event) (r : Res),
      dumpsReplay o r (l1 ++ l2) ↔ dumpsReplay o r l1 ∧ dumpsReplay o (replayRes o r l1) l2
  | [], l2, r => by simp [dumpsReplay, replayRes]
  | e :: l1, l2, r => by
      cases e <;>
        simp [dumpsReplay, replayRes, dumpsReplay_append_ab o l1 l2, and_assoc]

theorem updMatch_iter_ab (o : Oracle) (rd : String) (og : Dict) (nid s : Nat) (e : Int)
    (snap : Res) (last : Option Nat) : updMatch last (iterEvents o rd og nid s e snap) := by
  simp [iterEvents, updMatch]

theorem lastTrain_iter_ab (o : Oracle) (rd : String) (og : Dict) (nid s : Nat) (e : Int)
    (snap : Res) (last : Option Nat) :
    lastTrain last (iterEvents o rd og nid s e snap) = some (nid + 2) := by
  simp [iterEvents, lastTrain]

theorem updMatch_delta_ab (o : Oracle) (rd : String) (og : Dict) :
    ∀ (l : List (Nat × Int)) (nid : Nat) (res : Res) (last : Option Nat),
      updMatch last (loopDeltaAb o rd og nid res l).2.1
  | [], _, _, _ => trivial
  | se :: rest, nid, res, last => by
      show updMatch last (iterEvents o rd og nid se.1 se.2 _ ++ _)
      rw [updMatch_append_ab]
      exact ⟨updMatch_iter_ab o rd og nid se.1 se.2 _ last,
        by rw [lastTrain_iter_ab]
           exact updMatch_delta_ab o rd og rest (nid + 3) _ _⟩

theorem seqOk_iter_ab (o : Oracle) (rd : String) (og : Dict) (nid s : Nat) (e : Int)
    (snap : Res) : seqOk nid (iterEvents o rd og nid s e snap) := by
  simp [iterEvents, seqOk]

theorem trainEnd_iter_ab (o : Oracle) (rd : String) (og : Dict) (nid s : Nat) (e : Int)
    (snap : Res) : trainEnd nid (iterEvents o rd og nid s e snap) = nid + 3 := by
  simp [iterEvents, trainEnd]

theorem seqOk_delta_ab (o : Oracle) (rd : String) (og : Dict) :
    ∀ (l : List (Nat × Int)) (nid : Nat) (res : Res),
      seqOk nid (loopDeltaAb o rd og nid res l).2.1
  | [], _, _ => trivial
  | se :: rest, nid, res => by
      show seqOk nid (iterEvents o rd og nid se.1 se.2 _ ++ _)
      rw [seqOk_append_ab]
      exact ⟨seqOk_iter_ab o rd og nid se.1 se.2 _,
        by rw [trainEnd_iter_ab]
           exact seqOk_delta_ab o rd og rest (nid + 3) _⟩

theorem replayRes_iter_ab (o : Oracle) (rd : String) (og : Dict) (nid s : Nat) (e : Int)
    (snap res : Res) :
    replayRes o res (iterEvents o rd og nid s e snap)
    = applyIter o og nid s e res := by
  simp [iterEvents, replayRes, applyIter]

theorem dumpsReplay_iter_ab (o : Oracle) (rd : String) (og : Dict) (nid s : Nat) (e : Int)
    (res : Res) :
    dumpsReplay o res (iterEvents o rd og nid s e (applyIter o og nid s e res)) := by
  simp [iterEvents, dumpsReplay, applyIter]

theorem dumpsReplay_delta_ab (o : Oracle) (rd : String) (og : Dict) :
    ∀ (l : List (Nat × Int)) (nid : Nat) (res : Res),
      dumpsReplay o res (loopDeltaAb o rd og nid res l).2.1
  | [], _, _ => trivial
  | se :: rest, nid, res => by
      show dumpsReplay o res (iterEvents o rd og nid se.1 se.2 _ ++ _)
      rw [dumpsReplay_append_ab]
      refine ⟨dumpsReplay_iter_ab o rd og nid se.1 se.2 res, ?_⟩
      rw [replayRes_iter_ab]
      exact dumpsReplay_delta_ab o rd og rest (nid + 3) _

theorem npyOf_append_ab (l1 l2 : List Event) : npyOf (l1 ++ l2) = npyOf l1 ++ npyOf l2 := by
  simp [npyOf]

theorem cfgPhaseOf_append_ab (l1 l2 : List Event) :
    cfgPhaseOf (l1 ++ l2) = cfgPhaseOf l1 ++ cfgPhaseOf l2 := by
  simp [cfgPhaseOf]

theorem genTrainOf_append_ab (l1 l2 : List Event) :
    genTrainOf (l1 ++ l2) = genTrainOf l1 ++ genTrainOf l2 := by
  simp [genTrainOf]

theorem trainSummaryOf_append_ab (l1 l2 : List Event) :
    trainSummaryOf (l1 ++ l2) = trainSummaryOf l1 ++ trainSummaryOf l2 := by
  simp [trainSummaryOf]

theorem updSummaryOf_append_ab (l1 l2 : List Event) :
    updSummaryOf (l1 ++ l2) = updSummaryOf l1 ++ updSummaryOf l2 := by
  simp [updSummaryOf]

theorem trainCfgsOf_append_ab (l1 l2 : List Event) :
    trainCfgsOf (l1 ++ l2) = trainCfgsOf l1 ++ trainCfgsOf l2 := by
  simp [trainCfgsOf]

theorem dumpsOf_append_ab (l1 l2 : List Event) :
    dumpsOf (l1 ++ l2) = dumpsOf l1 ++ dumpsOf l2 := by
  simp [dumpsOf]

theorem npyOf_acts_ab (rd : String) (f : Int) :
    npyOf (actsSaveEventsAb rd f) = if rd ≠ "" ∧ f ≠ 0 then npyPaths rd else [] := by
  by_cases h : rd ≠ "" ∧ f ≠ 0 <;>
    simp [actsSaveEventsAb, npyOf, npyPaths, h]

theorem cfgPhaseOf_acts_ab (rd : String) (f : Int) :
    cfgPhaseOf (actsSaveEventsAb rd f) = [] := by
  by_cases h : rd ≠ "" ∧ f ≠ 0 <;> simp [actsSaveEventsAb, cfgPhaseOf, h]

theorem genTrainOf_acts_ab (rd : String) (f : Int) :
    genTrainOf (actsSaveEventsAb rd f) = [] := by
  by_cases h : rd ≠ "" ∧ f ≠ 0 <;> simp [actsSaveEventsAb, genTrainOf, h]

theorem trainSummaryOf_acts_ab (rd : String) (f : Int) :
    trainSummaryOf (actsSaveEventsAb rd f) = [] := by
  by_cases h : rd ≠ "" ∧ f ≠ 0 <;> simp [actsSaveEventsAb, trainSummaryOf, h]

theorem updSummaryOf_acts_ab (rd : String) (f : Int) :
    updSummaryOf (actsSaveEventsAb rd f) = [] := by
  by_cases h : rd ≠ "" ∧ f ≠ 0 <;> simp [actsSaveEventsAb, updSummaryOf, h]

theorem trainCfgsOf_acts_ab (rd : String) (f : Int) :
    trainCfgsOf (actsSaveEventsAb rd f) = [] := by
  by_cases h : rd ≠ "" ∧ f ≠ 0 <;> simp [actsSaveEventsAb, trainCfgsOf, h]

theorem dumpsOf_acts_ab (rd : String) (f : Int) : dumpsOf (actsSaveEventsAb rd f) = [] := by
  by_cases h : rd ≠ "" ∧ f ≠ 0 <;> simp [actsSaveEventsAb, dumpsOf, h]

theorem npyOf_main_ab (o : Oracle) (a : Args) :
    npyOf (main o a).events
    = if a.resultDir ≠ "" ∧ a.activationFreq ≠ 0 then npyPaths a.resultDir else [] := by
  rw [abMain_spec]
  simp only [preEvents, List.append_assoc, npyOf_append_ab, npyOf_acts_ab,
    npyOf_delta_ab o a.resultDir (ogFull a) (iters (cv a)) 0 []]
  simp [npyOf]

theorem cfgPhaseOf_main_ab (o : Oracle) (a : Args) :
    cfgPhaseOf (main o a).events = [(true, ogFull a), (false, ogFull a)] := by
  rw [abMain_spec]
  simp only [preEvents, List.append_assoc, cfgPhaseOf_append_ab, cfgPhaseOf_acts_ab,
    cfgPhaseOf_delta_ab o a.resultDir (ogFull a) (iters (cv a)) 0 []]
  simp [cfgPhaseOf]

theorem genTrainOf_main_ab (o : Oracle) (a : Args) :
    genTrainOf (main o a).events
    = none :: (seqIds 0 (3 * (iters (cv a)).length)).map some := by
  rw [abMain_spec]
  simp only [preEvents, List.append_assoc, genTrainOf_append_ab, genTrainOf_acts_ab,
    genTrainOf_delta_ab o a.resultDir (ogFull a) (iters (cv a)) 0 []]
  simp [genTrainOf]

theorem trainSummaryOf_main_ab (o : Oracle) (a : Args) :
    trainSummaryOf (main o a).events = sweepFrom 0 (iters (cv a)) := by
  rw [abMain_spec]
  simp only [preEvents, List.append_assoc, trainSummaryOf_append_ab, trainSummaryOf_acts_ab,
    trainSummaryOf_delta_ab o a.resultDir (ogFull a) (iters (cv a)) 0 []]
  simp [trainSummaryOf]

theorem updSummaryOf_main_ab (o : Oracle) (a : Args) :
    updSummaryOf (main o a).events = updSweepFrom 0 (iters (cv a)) := by
  rw [abMain_spec]
  simp only [preEvents, List.append_assoc, updSummaryOf_append_ab, updSummaryOf_acts_ab,
    updSummaryOf_delta_ab o a.resultDir (ogFull a) (iters (cv a)) 0 []]
  simp [updSummaryOf]

theorem trainCfgsOf_main_ab (o : Oracle) (a : Args) :
    trainCfgsOf (main o a).events
    = (iters (cv a)).flatMap (fun se => iterCfgList o (ogFull a) se.2) := by
  rw [abMain_spec]
  simp only [preEvents, List.append_assoc, trainCfgsOf_append_ab, trainCfgsOf_acts_ab,
    trainCfgsOf_delta_ab o a.resultDir (ogFull a) (iters (cv a)) 0 []]
  simp [trainCfgsOf]

theorem dumpsOf_main_ab (o : Oracle) (a : Args) :
    dumpsOf (main o a).events
    = (deltaDumps o (ogFull a) 0 [] (iters (cv a))).map
        (fun r => (joinPath a.resultDir "results.joblib", r)) := by
  rw [abMain_spec]
  simp only [preEvents, List.append_assoc, dumpsOf_append_ab, dumpsOf_acts_ab,
    dumpsOf_delta_ab o a.resultDir (ogFull a) (iters (cv a)) 0 []]
  simp [dumpsOf]

theorem updMatch_acts_ab (rd : String) (f : Int) (last : Option Nat) (l : List Event) :
    updMatch last (actsSaveEventsAb rd f ++ l) ↔ updMatch last l := by
  rw [updMatch_append_ab]
  by_cases h : rd ≠ "" ∧ f ≠ 0 <;> simp [actsSaveEventsAb, h, updMatch, lastTrain]

theorem updMatch_main_ab (o : Oracle) (a : Args) : updMatch none (main o a).events := by
  rw [abMain_spec]
  simp only [preEvents, List.append_assoc]
  show updMatch none ([Event.extendParams (ogFull a), Event.generateData (ogFull a)]
    ++ (actsSaveEventsAb a.resultDir a.activationFreq ++ _))
  rw [updMatch_append_ab]
  refine ⟨by simp [updMatch], ?_⟩
  rw [show lastTrain none [Event.extendParams (ogFull a), Event.generateData (ogFull a)]
    = none from rfl]
  rw [updMatch_acts_ab]
  exact updMatch_delta_ab o a.resultDir (ogFull a) (iters (cv a)) 0 [] none

theorem seqOk_acts_ab (rd : String) (f : Int) (c : Nat) (l : List Event) :
    seqOk c (actsSaveEventsAb rd f ++ l) ↔ seqOk c l := by
  rw [seqOk_append_ab]
  by_cases h : rd ≠ "" ∧ f ≠ 0 <;> simp [actsSaveEventsAb, h, seqOk, trainEnd]

theorem seqOk_main_ab (o : Oracle) (a : Args) : seqOk 0 (main o a).events := by
  rw [abMain_spec]
  simp only [preEvents, List.append_assoc]
  show seqOk 0 ([Event.extendParams (ogFull a), Event.generateData (ogFull a)]
    ++ (actsSaveEventsAb a.resultDir a.activationFreq ++ _))
  rw [seqOk_append_ab]
  refine ⟨by simp [seqOk], ?_⟩
  rw [show trainEnd 0 [Event.extendParams (ogFull a), Event.generateData (ogFull a)]
    = 0 from rfl]
  rw [seqOk_acts_ab]
  exact seqOk_delta_ab o a.resultDir (ogFull a) (iters (cv a)) 0 []

theorem dumpsReplay_acts_ab (o : Oracle) (rd : String) (f : Int) (r : Res) (l : List Event) :
    dumpsReplay o r (actsSaveEventsAb rd f ++ l) ↔ dumpsReplay o r l := by
  rw [dumpsReplay_append_ab]
  by_cases h : rd ≠ "" ∧ f ≠ 0 <;> simp [actsSaveEventsAb, h, dumpsReplay, replayRes]

theorem dumpsReplay_main_ab (o : Oracle) (a : Args) : dumpsReplay o [] (main o a).events := by
  rw [abMain_spec]
  simp only [preEvents, List.append_assoc]
  show dumpsReplay o [] ([Event.extendParams (ogFull a), Event.generateData (ogFull a)]
    ++ (actsSaveEventsAb a.resultDir a.activationFreq ++ _))
  rw [dumpsReplay_append_ab]
  refine ⟨by simp [dumpsReplay], ?_⟩
  rw [show replayRes o [] [Event.extendParams (ogFull a), Event.generateData (ogFull a)]
    = [] from rfl]
  rw [dumpsReplay_acts_ab]
  exact dumpsReplay_delta_ab o a.resultDir (ogFull a) (iters (cv a)) 0 []

theorem delta_res_eq_last_ab (o : Oracle) (rd : String) (og : Dict) :
    ∀ (l : List (Nat × Int)) (nid : Nat) (res : Res),
      (loopDeltaAb o rd og nid res l).1 = (deltaDumps o og nid res l).getLast?.getD res
  | [], nid, res => by simp [loopDeltaAb, deltaDumps]
  | se :: rest, nid, res => by
      simp only [loopDeltaAb, deltaDumps]
      rw [delta_res_eq_last_ab o rd og rest (nid + 3)]
      cases hL : deltaDumps o og (nid + 3) (applyIter o og nid se.1 se.2 res) rest with
      | nil => simp [hL]
      | cons x xs =>
          rw [List.getLast?_cons_cons]
          cases hG : (x :: xs).getLast? with
          | none => simp [List.getLast?_eq_none_iff] at hG
          | some y => simp [hG]

theorem deltaDumps_length_ab (o : Oracle) (og : Dict) :
    ∀ (l : List (Nat × Int)) (nid : Nat) (res : Res),
      (deltaDumps o og nid res l).length = l.length
  | [], _, _ => rfl
  | se :: rest, nid, res => by
      simp [deltaDumps, deltaDumps_length_ab o og rest (nid + 3)]

theorem iters_length_ab : ∀ cvN : Nat, (iters cvN).length = 8 * cvN
  | 0 => rfl
  | n + 1 => by
      have h : iters (n + 1) = iters n ++ embList.map (fun e => (n, e)) := by
        simp [iters, List.range_succ, List.flatMap_append]
      rw [h, List.length_append, iters_length_ab n]
      simp [embList]
      omega

theorem shape_getD_ab (cvN : Nat) (r : Res) (emb : Int) (h : shapeOk cvN r = true) :
    ((assocGet r emb).getD []).all
      (fun skv => memB skv.1 ((List.range cvN).map (fun s => toString s))) = true := by
  cases hg : assocGet r emb with
  | none => simp
  | some sub =>
      have hp := all_assocGet _ r emb sub h hg
      simp only [Bool.and_eq_true] at hp
      simpa using hp.2

theorem shape_ensure_ab (cvN : Nat) (r : Res) (emb : Int) (s : Nat) (hs : s < cvN)
    (he : emb ∈ embList) (h : shapeOk cvN r = true) :
    shapeOk cvN (ensureCells r emb (toString s)) = true := by
  have hkey : memB (toString s) ((List.range cvN).map (fun t => toString t)) = true := by
    simp only [memB_eq_true]
    exact List.mem_map_of_mem _ (List.mem_range.mpr hs)
  have hembB : memB emb embList = true := by
    simp only [memB_eq_true]
    exact he
  by_cases h1 : (assocGet r emb).isSome
  · by_cases h2 : (assocGet ((assocGet r emb).getD []) (toString s)).isSome
    · have he1 : ensureCells r emb (toString s) = r := by
        simp [ensureCells, h1, h2]
      rw [he1]
      exact h
    · have he1 : ensureCells r emb (toString s)
          = assocSet r emb (assocSet ((assocGet r emb).getD []) (toString s) []) := by
        simp [ensureCells, h1, h2]
      rw [he1]
      refine all_assocSet _ r emb _ h ?_
      simp only [Bool.and_eq_true]
      exact ⟨hembB, all_assocSet _ _ (toString s) [] (shape_getD_ab cvN r emb h) hkey⟩
  · have he1 : ensureCells r emb (toString s) = assocSet r emb (assocSet [] (toString s) []) := by
      simp [ensureCells, h1, assocGet]
    rw [he1]
    refine all_assocSet _ r emb _ h ?_
    simp only [Bool.and_eq_true]
    refine ⟨hembB, ?_⟩
    simp [assocSet, hkey]

theorem shape_applyIter_ab (o : Oracle) (og : Dict) (nid cvN : Nat) (s : Nat) (e : Int)
    (res : Res) (hs : s < cvN) (he : e ∈ embList) (h : shapeOk cvN res = true) :
    shapeOk cvN (applyIter o og nid s e res) = true := by
  have hkey : memB (toString s) ((List.range cvN).map (fun t => toString t)) = true := by
    simp only [memB_eq_true]
    exact List.mem_map_of_mem _ (List.mem_range.mpr hs)
  have hembB : memB e embList = true := by
    simp only [memB_eq_true]
    exact he
  have h1 := shape_ensure_ab cvN res e s hs he h
  unfold applyIter
  refine all_assocSet _ _ e _ h1 ?_
  simp only [Bool.and_eq_true]
  exact ⟨hembB,
    all_assocSet _ _ (toString s) _ (shape_getD_ab cvN (ensureCells res e (toString s)) e h1)
      hkey⟩

theorem resShape_delta_ab (o : Oracle) (rd : String) (og : Dict) (cvN : Nat) :
    ∀ (l : List (Nat × Int)) (nid : Nat) (res : Res),
      (∀ se ∈ l, se.1 < cvN ∧ se.2 ∈ embList) → shapeOk cvN res = true →
      shapeOk cvN (loopDeltaAb o rd og nid res l).1 = true
      ∧ ∀ r ∈ deltaDumps o og nid res l, shapeOk cvN r = true
  | [], nid, res, _, hres => ⟨hres, by simp [deltaDumps]⟩
  | se :: rest, nid, res, hl, hres => by
      have hse := hl se (by simp)
      have hres1 : shapeOk cvN (applyIter o og nid se.1 se.2 res) = true :=
        shape_applyIter_ab o og nid cvN se.1 se.2 res hse.1 hse.2 hres
      have ih := resShape_delta_ab o rd og cvN rest (nid + 3)
        (applyIter o og nid se.1 se.2 res)
        (fun x hx => hl x (by simp [hx])) hres1
      refine ⟨by simpa [loopDeltaAb] using ih.1, ?_⟩
      intro r hr
      simp only [deltaDumps, List.mem_cons] at hr
      rcases hr with hr | hr
      · exact hr ▸ hres1
      · exact ih.2 r hr

theorem iters_mem_ab (cvN : Nat) (se : Nat × Int) (h : se ∈ iters cvN) :
    se.1 < cvN ∧ se.2 ∈ embList := by
  simp only [iters, List.mem_flatMap, List.mem_map, List.mem_range] at h
  obtain ⟨s, hs, e, he, rfl⟩ := h
  exact ⟨hs, he⟩

end Ablation

/-- C2 counterexample: in `train_cub.py`, the top-level keys of the
serialized results dictionary are the split labels (`results[f-split]`,
line 123), not embedding sizes: in a run with `cv = 1` and the default
`emb_size = 16`, the only top-level key is `"0"`, which matches no
embedding size used by any training call of the run. -/
theorem C2_counterexample :
    specTopKeysAreEmbSizes (TrainCub.main exOracle exArgs) = false := by
  decide

/-- C2 amended: the ablation script's results dictionary maps embedding
size to split label to metrics at every serialization point and on
return; `train_cub.py`'s results dictionary is instead keyed by split
label at top level (split → metrics/config), with no embedding-size
level. -/
theorem C2_amended_results_shape :
    (∀ (o : TrainCub.Oracle) (a : TrainCub.Args),
      TrainCub.resKeysOk (TrainCub.cv a) (TrainCub.main o a).results = true
      ∧ (TrainCub.dumpsOf (TrainCub.main o a).events).all
          (fun pr => TrainCub.resKeysOk (TrainCub.cv a) pr.2) = true)
    ∧ (∀ (o : Ablation.Oracle) (a : Ablation.Args),
      Ablation.shapeOk (Ablation.cv a) (Ablation.main o a).results = true
      ∧ (Ablation.dumpsOf (Ablation.main o a).events).all
          (fun pr => Ablation.shapeOk (Ablation.cv a) pr.2) = true) := by
  constructor
  · intro o a
    have hshape := TrainCub.resShape_delta_tc o a.resultDir (TrainCub.ogFull a)
      (TrainCub.cv a) (List.range (TrainCub.cv a)) 0 []
      (fun s hs => List.mem_range.mp hs) rfl
    refine ⟨?_, ?_⟩
    · rw [TrainCub.main_spec]
      exact hshape.1
    · rw [TrainCub.dumpsOf_main_tc]
      simp only [List.all_eq_true]
      intro pr hpr
      simp only [List.mem_map] at hpr
      obtain ⟨r, hr, rfl⟩ := hpr
      exact hshape.2 r hr
  · intro o a
    have hshape := Ablation.resShape_delta_ab o a.resultDir (Ablation.ogFull a)
      (Ablation.cv a) (Ablation.iters (Ablation.cv a)) 0 []
      (fun se hse => Ablation.iters_mem_ab (Ablation.cv a) se hse) rfl
    refine ⟨?_, ?_⟩
    · rw [Ablation.abMain_spec]
      exact hshape.1
    · rw [Ablation.dumpsOf_main_ab]
      simp only [List.all_eq_true]
      intro pr hpr
      simp only [List.mem_map] at hpr
      obtain ⟨r, hr, rfl⟩ := hpr
      exact hshape.2 r hr

/-- C3: the ablation `main` iterates splits `0..cv-1` (outer) and the
embedding sizes `[1, 2, 4, 6, 8, 16, 32, 64]` (inner); every
`(split, emb_size)` iteration issues exactly three `train_model` calls
- the MixtureEmbModel variant, the extra-capacity fuzzy
ConceptBottleneckModel variant and the no-concept-supervision
ConceptBottleneckModel variant, in that order - each followed by an
`update_statistics` recording into `results[emb_size][f-split]`; and
`cv` defaults to 5. -/
theorem C3_ablation_sweep :
    (∀ (o : Ablation.Oracle) (a : Ablation.Args),
      Ablation.trainSummaryOf (Ablation.main o a).events
        = Ablation.sweepFrom 0 (Ablation.iters (Ablation.cv a))
      ∧ Ablation.updSummaryOf (Ablation.main o a).events
        = Ablation.updSweepFrom 0 (Ablation.iters (Ablation.cv a)))
    ∧ Ablation.cv Ablation.defaultArgs = 5
    ∧ Ablation.embList = [1, 2, 4, 6, 8, 16, 32, 64]
    ∧ (∀ cvN : Nat, Ablation.iters cvN
        = (List.range cvN).flatMap (fun s => Ablation.embList.map (fun e => (s, e)))) := by
  refine ⟨fun o a => ⟨Ablation.trainSummaryOf_main_ab o a, Ablation.updSummaryOf_main_ab o a⟩,
    by decide, rfl, fun _ => rfl⟩

/-- C4: in both scripts, a `joblib.dump` of the cumulative results into
`result_dir/results.joblib` happens once per completed iteration (one
per split in `train_cub.py`, one per `(split, emb_size)` pair in the
ablation), each snapshot being the results accumulated so far; the
dictionary returned by `main` equals the snapshot of the final dump. -/
theorem C4_results_serialization :
    (∀ (o : TrainCub.Oracle) (a : TrainCub.Args),
      TrainCub.dumpsOf (TrainCub.main o a).events
        = (TrainCub.deltaDumps o (TrainCub.ogFull a) 0 [] (List.range (TrainCub.cv a))).map
            (fun r => (joinPath a.resultDir "results.joblib", r))
      ∧ (TrainCub.dumpsOf (TrainCub.main o a).events).length = TrainCub.cv a
      ∧ (TrainCub.dumpsOf (TrainCub.main o a).events).getLast?
        = if TrainCub.cv a = 0 then none
          else some (joinPath a.resultDir "results.joblib", (TrainCub.main o a).results))
    ∧ (∀ (o : Ablation.Oracle) (a : Ablation.Args),
      Ablation.dumpsOf (Ablation.main o a).events
        = (Ablation.deltaDumps o (Ablation.ogFull a) 0 [] (Ablation.iters (Ablation.cv a))).map
            (fun r => (joinPath a.resultDir "results.joblib", r))
      ∧ (Ablation.dumpsOf (Ablation.main o a).events).length = 8 * Ablation.cv a
      ∧ (Ablation.dumpsOf (Ablation.main o a).events).getLast?
        = if Ablation.cv a = 0 then none
          else some (joinPath a.resultDir "results.joblib", (Ablation.main o a).results)) := by
  constructor
  · intro o a
    refine ⟨TrainCub.dumpsOf_main_tc o a, ?_, ?_⟩
    · rw [TrainCub.dumpsOf_main_tc]
      simp [TrainCub.deltaDumps_length_tc]
    · rw [TrainCub.dumpsOf_main_tc, List.getLast?_map]
      have hres : (TrainCub.main o a).results
          = (TrainCub.deltaDumps o (TrainCub.ogFull a) 0 []
              (List.range (TrainCub.cv a))).getLast?.getD [] := by
        rw [TrainCub.main_spec]
        exact TrainCub.delta_res_eq_last_tc o a.resultDir (TrainCub.ogFull a) _ 0 []
      cases hcv : TrainCub.cv a with
      | zero => simp [hcv, TrainCub.deltaDumps]
      | succ k =>
          have hlen : (TrainCub.deltaDumps o (TrainCub.ogFull a) 0 []
              (List.range (k + 1))).length = k + 1 := by
            simp [TrainCub.deltaDumps_length_tc]
          cases hL : (TrainCub.deltaDumps o (TrainCub.ogFull a) 0 []
              (List.range (k + 1))).getLast? with
          | none =>
              rw [List.getLast?_eq_none_iff] at hL
              rw [hL] at hlen
              simp at hlen
          | some y =>
              rw [hcv] at hres
              simp [hL, hres]
  · intro o a
    refine ⟨Ablation.dumpsOf_main_ab o a, ?_, ?_⟩
    · rw [Ablation.dumpsOf_main_ab]
      simp [Ablation.deltaDumps_length_ab, Ablation.iters_length_ab]
    · rw [Ablation.dumpsOf_main_ab, List.getLast?_map]
      have hres : (Ablation.main o a).results
          = (Ablation.deltaDumps o (Ablation.ogFull a) 0 []
              (Ablation.iters (Ablation.cv a))).getLast?.getD [] := by
        rw [Ablation.abMain_spec]
        exact Ablation.delta_res_eq_last_ab o a.resultDir (Ablation.ogFull a) _ 0 []
      cases hcv : Ablation.cv a with
      | zero => simp [hcv, Ablation.deltaDumps, Ablation.iters]
      | succ k =>
          have hlen : (Ablation.deltaDumps o (Ablation.ogFull a) 0 []
              (Ablation.iters (k + 1))).length = 8 * (k + 1) := by
            simp [Ablation.deltaDumps_length_ab, Ablation.iters_length_ab]
          cases hL : (Ablation.deltaDumps o (Ablation.ogFull a) 0 []
              (Ablation.iters (k + 1))).getLast? with
          | none =>
              rw [List.getLast?_eq_none_iff] at hL
              rw [hL] at hlen
              simp at hlen
          | some y =>
              rw [hcv] at hres
              simp [hL, hres]

/-- C5: in both scripts, the NumPy activation dumps
(`x_/y_/c_{test,val}.npy` under `result_dir/test_embedding_acts`) are
written if and only if `result_dir` is non-empty and `activation_freq`
is nonzero; with the default `activation_freq = 0` no `.npy` file is
written. -/
theorem C5_npy_dumps :
    (∀ (o : TrainCub.Oracle) (a : TrainCub.Args),
      TrainCub.npyOf (TrainCub.main o a).events
        = if a.resultDir ≠ "" ∧ a.activationFreq ≠ 0 then npyPaths a.resultDir else [])
    ∧ (∀ (o : Ablation.Oracle) (a : Ablation.Args),
      Ablation.npyOf (Ablation.main o a).events
        = if a.resultDir ≠ "" ∧ a.activationFreq ≠ 0 then npyPaths a.resultDir else [])
    ∧ (∀ o : TrainCub.Oracle,
      TrainCub.npyOf (TrainCub.main o TrainCub.defaultArgs).events = [])
    ∧ (∀ o : Ablation.Oracle,
      Ablation.npyOf (Ablation.main o Ablation.defaultArgs).events = []) := by
  refine ⟨TrainCub.npyOf_main_tc, Ablation.npyOf_main_ab, fun o => ?_, fun o => ?_⟩
  · rw [TrainCub.npyOf_main_tc]
    simp [TrainCub.defaultArgs]
  · rw [Ablation.npyOf_main_ab]
    simp [Ablation.defaultArgs]

/-- C6: each `main` is a flat sequence of phases: the configuration
extensions happen before the single `generate_data` call, which sees
the fully extended base configuration and precedes every training call;
every `update_statistics` call records the outputs of the most recent
(immediately preceding) training call; and every `joblib.dump` snapshot
equals the accumulation of exactly the recording operations performed
before it. -/
theorem C6_phase_order :
    (∀ (o : TrainCub.Oracle) (a : TrainCub.Args),
      TrainCub.cfgPhaseOf (TrainCub.main o a).events
        = [(true, TrainCub.ogExt1 a), (true, TrainCub.ogFull a), (false, TrainCub.ogFull a)]
      ∧ TrainCub.genTrainOf (TrainCub.main o a).events
        = none :: (seqIds 0 (7 * TrainCub.cv a)).map some
      ∧ TrainCub.updMatch none (TrainCub.main o a).events
      ∧ TrainCub.dumpsReplay o [] (TrainCub.main o a).events)
    ∧ (∀ (o : Ablation.Oracle) (a : Ablation.Args),
      Ablation.cfgPhaseOf (Ablation.main o a).events
        = [(true, Ablation.ogFull a), (false, Ablation.ogFull a)]
      ∧ Ablation.genTrainOf (Ablation.main o a).events
        = none :: (seqIds 0 (3 * (Ablation.iters (Ablation.cv a)).length)).map some
      ∧ Ablation.updMatch none (Ablation.main o a).events
      ∧ Ablation.dumpsReplay o [] (Ablation.main o a).events) :=
  ⟨fun o a => ⟨TrainCub.cfgPhaseOf_main_tc o a, TrainCub.genTrainOf_main_tc o a,
      TrainCub.updMatch_main_tc o a, TrainCub.dumpsReplay_main_tc o a⟩,
   fun o a => ⟨Ablation.cfgPhaseOf_main_ab o a, Ablation.genTrainOf_main_ab o a,
      Ablation.updMatch_main_ab o a, Ablation.dumpsReplay_main_ab o a⟩⟩

/-- C8: in both scripts every per-variant configuration is built from a
deep copy of `og_config`: the base-configuration heap cell still holds
the fully extended base configuration when `main` returns, and the
configuration passed to every training call of every iteration equals
the variant's assignment sequence applied to that same base value. -/
theorem C8_og_config_frame :
    (∀ (o : TrainCub.Oracle) (a : TrainCub.Args),
      (TrainCub.main o a).heap.og = TrainCub.ogFull a
      ∧ TrainCub.trainCfgsOf (TrainCub.main o a).events
        = (List.range (TrainCub.cv a)).flatMap
            (fun _ => TrainCub.variantCfgList o (TrainCub.ogFull a)))
    ∧ (∀ (o : Ablation.Oracle) (a : Ablation.Args),
      (Ablation.main o a).heap.og = Ablation.ogFull a
      ∧ Ablation.trainCfgsOf (Ablation.main o a).events
        = (Ablation.iters (Ablation.cv a)).flatMap
            (fun se => Ablation.iterCfgList o (Ablation.ogFull a) se.2)) := by
  refine ⟨fun o a => ⟨?_, TrainCub.trainCfgsOf_main_tc o a⟩,
    fun o a => ⟨?_, Ablation.trainCfgsOf_main_ab o a⟩⟩
  · rw [TrainCub.main_spec]
  · rw [Ablation.abMain_spec]

/-- C9: every extra-capacity ConceptBottleneckModel variant
(FuzzyExtraCapacity_Logit and NoConceptSupervisionReLU_ExtraCapacity,
in both scripts) sets `extra_dims = (emb_size - 1) * n_concepts`, so
its bottleneck width `n_concepts + extra_dims` equals
`emb_size * n_concepts`, the total bottleneck width of the embedding
model for the same `emb_size`; and these variant configurations are
exactly the ones the runs pass to training. -/
theorem C9_bottleneck_width :
    (∀ (n e : Int) (og : Dict),
      pyInt (assocGet (Ablation.cfgFuzzy n e og) "extra_dims") = (e - 1) * n
      ∧ pyInt (assocGet (Ablation.cfgNoSup n e og) "extra_dims") = (e - 1) * n
      ∧ pyInt (assocGet (Ablation.cfgFuzzy n e og) "emb_size") = e
      ∧ pyInt (assocGet (Ablation.cfgNoSup n e og) "emb_size") = e
      ∧ n + (e - 1) * n = e * n)
    ∧ (∀ (n : Int) (og : Dict),
      pyInt (assocGet (TrainCub.cfgFuzzyExtra n og) "extra_dims")
        = (pyInt (assocGet og "emb_size") - 1) * n
      ∧ pyInt (assocGet (TrainCub.cfgNoSup n og) "extra_dims")
        = (pyInt (assocGet og "emb_size") - 1) * n
      ∧ n + (pyInt (assocGet og "emb_size") - 1) * n = pyInt (assocGet og "emb_size") * n)
    ∧ (∀ (o : Ablation.Oracle) (a : Ablation.Args),
      Ablation.trainCfgsOf (Ablation.main o a).events
        = (Ablation.iters (Ablation.cv a)).flatMap
            (fun se => Ablation.iterCfgList o (Ablation.ogFull a) se.2))
    ∧ (∀ (o : TrainCub.Oracle) (a : TrainCub.Args),
      TrainCub.trainCfgsOf (TrainCub.main o a).events
        = (List.range (TrainCub.cv a)).flatMap
            (fun _ => TrainCub.variantCfgList o (TrainCub.ogFull a))) := by
  refine ⟨fun n e og => ⟨?_, ?_, ?_, ?_, by ring⟩, fun n og => ⟨?_, ?_, by ring⟩,
    Ablation.trainCfgsOf_main_ab, TrainCub.trainCfgsOf_main_tc⟩
  · rw [Ablation.extraDims_cfgFuzzy_ab]
    rfl
  · rw [Ablation.extraDims_cfgNoSup_ab]
    rfl
  · rw [Ablation.embSize_cfgFuzzy_ab]
    rfl
  · rw [Ablation.embSize_cfgNoSup_ab]
    rfl
  · rw [TrainCub.extraDims_cfgFuzzyExtra_tc]
    rfl
  · rw [TrainCub.extraDims_cfgNoSup_tc]
    rfl

/-- C10: both scripts run their sweeps sequentially: the trace of each
`main` numbers its training calls `0, 1, 2, ...` in order, and every
`update_statistics` event refers to the training call issued
immediately before it, so no two training runs overlap and each run's
statistics are recorded before the next training call begins. -/
theorem C10_sequential_sweep :
    (∀ (o : TrainCub.Oracle) (a : TrainCub.Args),
      TrainCub.seqOk 0 (TrainCub.main o a).events)
    ∧ (∀ (o : Ablation.Oracle) (a : Ablation.Args),
      Ablation.seqOk 0 (Ablation.main o a).events) :=
  ⟨TrainCub.seqOk_main_tc, Ablation.seqOk_main_ab⟩

end CemSpec
